import Mathlib

/-!
# The NetHack RL window port (win/rl/winrl.cc)

A shallow embedding of the bridge class NetHackRL, of the free-standing
rl_* entry points that the window_procs table redirects the host through,
and of the snapshot encoder observation_message.

Conventions of the embedding.

* The bridge object is the record NetHackRL. The process-wide state outside
  it (the static unique_ptr instance, the call-trace deque win_proc_calls and
  what has gone out on the ZeroMQ socket or into the tty window port) is the
  record World.
* A call that aborts (a failed assert, an exception thrown by the socket) or
  that has undefined behaviour in C++ (indexing a vector or array outside its
  bounds, dereferencing an empty unique_ptr) yields Except.error with the
  kind of fault; nothing is said about the process afterwards.
* Values that the real interface subsystem or the host hands back (the window
  handle of tty_create_nhwindow, the key of tty_nhgetch, the result of
  mapglyph, the host globals read by the encoder) are arguments of the
  operation that receives them.
* Declarations of hack.h, botl.h and wintty.h that this unit uses but does
  not define (COLNO, ROWNO, the NHW_ and BL_ constants) are fields of the
  record HostDecls, a parameter of every definition that needs one.
* Machine integers are Int or Nat; a narrowing store wraps explicitly.
-/

namespace nethack_rl

/-! ## Faults -/

/-- Ways a call can fail to return. -/
inductive Fault where
  /-- An assert whose condition is false (asserts are taken as compiled in). -/
  | assertion
  /-- An index outside a vector or array (undefined behaviour). -/
  | out_of_range
  /-- A call through an empty unique_ptr (undefined behaviour). -/
  | null_deref
  /-- The socket bind of the constructor threw. -/
  | bind_failed
deriving DecidableEq

/-! ## Declarations taken from the host headers -/

/-- Compile-time declarations of hack.h, global.h, botl.h, wintty.h and
config.h that winrl.cc uses and that are not part of this unit. -/
structure HostDecls where
  COLNO : Nat
  ROWNO : Nat
  NHW_MESSAGE : Int
  NHW_STATUS : Int
  NHW_MAP : Int
  NHW_MENU : Int
  NHW_TEXT : Int
  NHW_BASE : Int
  MAXBLSTATS : Nat
  BL_RESET : Int
  BL_FLUSH : Int
  BL_TITLE : Nat
  BL_STR : Nat
  BL_DX : Nat
  BL_CO : Nat
  BL_IN : Nat
  BL_WI : Nat
  BL_CH : Nat
  BL_ALIGN : Nat
  BL_SCORE : Nat
  BL_CAP : Nat
  BL_GOLD : Nat
  BL_ENE : Nat
  BL_ENEMAX : Nat
  BL_XP : Nat
  BL_AC : Nat
  BL_HD : Nat
  BL_TIME : Nat
  BL_HUNGER : Nat
  BL_HP : Nat
  BL_HPMAX : Nat
  BL_LEVELDESC : Nat
  BL_EXP : Nat
  BL_CONDITION : Nat
  BL_MASK_STONE : Int
  BL_MASK_SLIME : Int
  BL_MASK_STRNGL : Int
  BL_MASK_FOODPOIS : Int
  BL_MASK_TERMILL : Int
  BL_MASK_BLIND : Int
  BL_MASK_DEAF : Int
  BL_MASK_STUN : Int
  BL_MASK_CONF : Int
  BL_MASK_HALLU : Int
  BL_MASK_LEV : Int
  BL_MASK_FLY : Int
  BL_MASK_RIDE : Int
  /-- Whether CLIPPING is defined. -/
  CLIPPING : Bool
  /-- Whether POSITIONBAR is defined. -/
  POSITIONBAR : Bool
  /-- Whether STATUS_HILITES is defined. -/
  STATUS_HILITES : Bool

/-- The values the declarations have in the NetHack 3.6 headers, used where a
concrete host is needed. -/
def nethack36 : HostDecls where
  COLNO := 80
  ROWNO := 21
  NHW_MESSAGE := 1
  NHW_STATUS := 2
  NHW_MAP := 3
  NHW_MENU := 4
  NHW_TEXT := 5
  NHW_BASE := 6
  MAXBLSTATS := 23
  BL_RESET := -2
  BL_FLUSH := -1
  BL_TITLE := 0
  BL_STR := 1
  BL_DX := 2
  BL_CO := 3
  BL_IN := 4
  BL_WI := 5
  BL_CH := 6
  BL_ALIGN := 7
  BL_SCORE := 8
  BL_CAP := 9
  BL_GOLD := 10
  BL_ENE := 11
  BL_ENEMAX := 12
  BL_XP := 13
  BL_AC := 14
  BL_HD := 15
  BL_TIME := 16
  BL_HUNGER := 17
  BL_HP := 18
  BL_HPMAX := 19
  BL_LEVELDESC := 20
  BL_EXP := 21
  BL_CONDITION := 22
  BL_MASK_STONE := 0x1
  BL_MASK_SLIME := 0x2
  BL_MASK_STRNGL := 0x4
  BL_MASK_FOODPOIS := 0x8
  BL_MASK_TERMILL := 0x10
  BL_MASK_BLIND := 0x20
  BL_MASK_DEAF := 0x40
  BL_MASK_STUN := 0x80
  BL_MASK_CONF := 0x100
  BL_MASK_HALLU := 0x200
  BL_MASK_LEV := 0x400
  BL_MASK_FLY := 0x800
  BL_MASK_RIDE := 0x1000
  CLIPPING := true
  POSITIONBAR := false
  STATUS_HILITES := true

/-- The handle of the base window; the constructor asserts BASE_WINDOW == 0. -/
def BASE_WINDOW : Nat := 0

/-- Number of cells of each of the four grid arrays, (COLNO - 1) * ROWNO. -/
def HostDecls.cells (K : HostDecls) : Nat := (K.COLNO - 1) * K.ROWNO

/-! ## Shadow records -/

/-- The struct rl_menu_item. The identifier is an opaque blob copied from
the host; selector and gselector are chars, values in -128..127. -/
structure rl_menu_item where
  glyph : Int
  identifier : Nat
  count : Int
  str : String
  attr : Int
  selected : Bool
  selector : Int
  gselector : Int
deriving DecidableEq

/-- The struct rl_window. -/
structure rl_window where
  type : Int
  menu_items : List rl_menu_item := []
  strings : List String := []
deriving DecidableEq

/-- The struct rl_inventory_item. -/
structure rl_inventory_item where
  glyph : Int
  str : String
  letter : Int
  object_class : Int
  object_class_name : String
deriving DecidableEq

/-- The data members of class NetHackRL that hold shadow state. windows_ is
a vector of unique_ptr, an empty pointer being none; the four grid arrays
have HostDecls.cells elements; status_ has MAXBLSTATS elements. The socket
members are represented by the trace of the World. -/
structure NetHackRL where
  windows_ : List (Option rl_window)
  glyphs_ : List Int
  chars_ : List Nat
  colors_ : List Nat
  specials_ : List Nat
  status_ : List String
  condition_bits_ : Int
  inventory_ : List rl_inventory_item
deriving DecidableEq

/-- What the members that the constructor leaves default-initialised
(chars_, colors_, specials_, condition_bits_) happen to contain. -/
structure Indeterminate where
  chars_ : Nat → Nat
  colors_ : Nat → Nat
  specials_ : Nat → Nat
  condition_bits_ : Int

/-- Conversion of an int to int16_t (wraps modulo 2^16). -/
def to_int16 (v : Int) : Int := (v + 32768) % 65536 - 32768

/-- Conversion of an int to char, which is taken to be the signed 8-bit
type it is on the x86 targets (wraps modulo 2^8 into -128..127). -/
def to_char (v : Int) : Int := (v + 128) % 256 - 128

/-- Conversion of an int to uint8_t (wraps modulo 2^8). -/
def to_uint8 (v : Int) : Nat := (v % 256).toNat

/-- Conversion of an int to size_t (wraps modulo 2^64). -/
def to_size_t (v : Int) : Nat := (v % 18446744073709551616).toNat

/-- The shadow members as the constructor NetHackRL::NetHackRL leaves them:
glyphs_ is value-initialised, windows_ gets the base window, status_ and
inventory_ start empty, the rest is indeterminate. -/
def NetHackRL.ctor (K : HostDecls) (u : Indeterminate) : NetHackRL where
  windows_ := [some { type := K.NHW_BASE }]
  glyphs_ := List.replicate K.cells 0
  chars_ := (List.range K.cells).map fun i => u.chars_ i % 256
  colors_ := (List.range K.cells).map fun i => u.colors_ i % 256
  specials_ := (List.range K.cells).map fun i => u.specials_ i % 256
  status_ := List.replicate K.MAXBLSTATS ""
  condition_bits_ := u.condition_bits_
  inventory_ := []

/-- The effect of std::vector::resize(n) on a vector of unique_ptr: longer
vectors are cut to n elements, shorter ones are filled up with empty
pointers. -/
def resize (ws : List (Option rl_window)) (n : Nat) : List (Option rl_window) :=
  ws.take n ++ List.replicate (n - ws.length) none

/-- Whether windows_[wid] exists and is a non-empty pointer. -/
def live (ws : List (Option rl_window)) (wid : Nat) : Bool :=
  match ws[wid]? with
  | some (some _) => true
  | _ => false

/-- Number of live shadow window slots. -/
def live_count (ws : List (Option rl_window)) : Nat :=
  (ws.filter Option.isSome).length

/-! ## The outbound message (message_generated.h) -/

namespace fbs

/-- The table MenuItem as CreateMenuItem fills it. -/
structure MenuItem where
  glyph : Int
  selector : Int
  gselector : Int
  str : String
  selected : Bool
deriving DecidableEq

/-- The table Window as CreateWindow fills it; a vector offset that was
never assigned is none. -/
structure Window where
  type : Int
  menu_items : Option (List MenuItem)
  strings : Option (List String)
deriving DecidableEq

/-- The struct Condition, one flag per named condition. -/
structure Condition where
  stoned : Bool
  slimed : Bool
  strangled : Bool
  food_poisoning : Bool
  terminally_ill : Bool
  blind : Bool
  deaf : Bool
  stunned : Bool
  confused : Bool
  hallucinating : Bool
  levitating : Bool
  flying : Bool
  riding : Bool
deriving DecidableEq

/-- The table Status: the 22 formatted fields in the order CreateStatus
takes them, and the condition flags. -/
structure Status where
  title : String
  strength : String
  dexterity : String
  constitution : String
  intelligence : String
  wisdom : String
  charisma : String
  alignment : String
  score : String
  carrying_capacity : String
  gold : String
  energy : String
  max_energy : String
  experience_level : String
  armor_class : String
  monster_level : String
  time : String
  hunger : String
  hitpoints : String
  max_hitpoints : String
  dungeon_level : String
  experience_points : String
  condition : Condition
deriving DecidableEq

/-- The table NDArray. The data is kept as the list of array elements; the
byte view that the encoder takes of them is below the level of this model. -/
structure NDArray where
  shape : List Int
  dtype : Int
  data : List Int
deriving DecidableEq

/-- The table InventoryItem. -/
structure InventoryItem where
  glyph : Int
  str : String
  letter : Int
  object_class : Int
  object_class_name : String
deriving DecidableEq

/-- The table Observation. -/
structure Observation where
  glyphs : NDArray
  chars : NDArray
  colors : NDArray
  specials : NDArray
  status : Status
  inventory : List InventoryItem
deriving DecidableEq

/-- The struct Blstats, in the order of its constructor arguments. -/
structure Blstats where
  x : Int
  y : Int
  strength_percentage : Int
  strength : Int
  dexterity : Int
  constitution : Int
  intelligence : Int
  wisdom : Int
  charisma : Int
  score : Int
  hitpoints : Int
  max_hitpoints : Int
  depth : Int
  gold : Int
  energy : Int
  max_energy : Int
  armor_class : Int
  monster_level : Int
  experience_level : Int
  experience_points : Int
  time : Int
  hunger_state : Int
  carrying_capacity : Int
deriving DecidableEq

/-- The struct DLevel (dungeon number and level). -/
structure DLevel where
  dnum : Int
  dlevel : Int
deriving DecidableEq

/-- The struct You. -/
structure You where
  ux : Int
  uy : Int
  ux0 : Int
  uy0 : Int
  uz : DLevel
  uz0 : DLevel
  uhunger : Int
deriving DecidableEq

/-- The table Internal; killer_name is none when its offset is 0. -/
structure Internal where
  deepest_lev_reached : Int
  call_stack : List String
  killer_name : Option String
  xwaitingforspace : Bool
  stairs_down : Bool
deriving DecidableEq

/-- The struct ProgramState. -/
structure ProgramState where
  gameover : Bool
  panicking : Bool
  exiting : Bool
  in_moveloop : Bool
  in_impossible : Bool
deriving DecidableEq

/-- The struct Seeds. -/
structure Seeds where
  core : Nat
  disp : Nat
deriving DecidableEq

/-- The table Message. A table offset or struct pointer that is 0 is none. -/
structure Message where
  observation : Option Observation
  blstats : Option Blstats
  you : Option You
  windows : Option (List Window)
  internal : Option Internal
  program_state : Option ProgramState
  seeds : Option Seeds
  terminated : Bool
deriving DecidableEq

/-- Modelled from the spec: message_generated.h is not part of this unit.
CreateMessage stores its arguments in the fields of the envelope of
section 6; the last parameter, terminated, may be left out by the caller
and is then false (the spec: true only for the final sentinel). -/
def CreateMessage (observation : Option Observation) (blstats : Option Blstats)
    (you : Option You) (windows : Option (List Window)) (internal : Option Internal)
    (program_state : Option ProgramState) (seeds : Option Seeds)
    (terminated : Bool := false) : Message :=
  { observation, blstats, you, windows, internal, program_state, seeds, terminated }

end fbs

/-! ## Host facts read by the encoder -/

/-- The host globals, macros and functions that observation_message,
clear_nhwindow_method and rl_print_glyph read, as they stand at the time of
a call. Each field is named after the expression in the source. -/
structure Host where
  nle_seeds_0 : Nat
  nle_seeds_1 : Nat
  gameover : Bool
  panicking : Bool
  exiting : Bool
  in_moveloop : Bool
  in_impossible : Bool
  /-- The macro Upolyd. -/
  Upolyd : Bool
  u_mh : Int
  u_uhp : Int
  u_mhmax : Int
  u_uhpmax : Int
  u_ux : Int
  u_uy : Int
  u_ux0 : Int
  u_uy0 : Int
  ACURRSTR : Int
  ACURR_A_STR : Int
  ACURR_A_DEX : Int
  ACURR_A_CON : Int
  ACURR_A_INT : Int
  ACURR_A_WIS : Int
  ACURR_A_CHA : Int
  botl_score : Int
  /-- The value of depth(&u.uz). -/
  depth_uz : Int
  /-- The value of money_cnt(invent). -/
  money_cnt_invent : Int
  u_uen : Int
  u_uenmax : Int
  u_uac : Int
  /-- The value of mons[u.umonnum].mlevel. -/
  mons_umonnum_mlevel : Int
  u_ulevel : Int
  u_uexp : Int
  moves : Int
  u_uhs : Int
  near_capacity : Int
  u_uz_dnum : Int
  u_uz_dlevel : Int
  u_uz0_dnum : Int
  u_uz0_dlevel : Int
  u_uhunger : Int
  killer_name : String
  xdnstair : Int
  ydnstair : Int
  sstairs_sx : Int
  sstairs_sy : Int
  sstairs_up : Bool
  xwaitingforspace : Bool
  /-- The value of deepest_lev_reached(false). -/
  deepest_lev_reached : Int
  WIN_MAP : Int
deriving DecidableEq

/-- The macro min of hack.h. -/
def min (x y : Int) : Int := if x < y then x else y

/-! ## The world around the bridge object -/

/-- What leaves the bridge: a message sent on the socket, or a call
delegated to the real interface subsystem, named by the function called and
recorded with the contents of win_proc_calls at the time of the call. -/
inductive Event where
  | send (m : fbs.Message)
  | tty (call : String) (stack : List String)
deriving DecidableEq

/-- The process-wide state: the static member instance, the global deque
win_proc_calls, and the sequence of events so far. -/
structure World where
  instance_ : Option NetHackRL
  win_proc_calls : List String
  trace : List Event
deriving DecidableEq

/-- The messages sent so far, oldest first. -/
def sent (t : List Event) : List fbs.Message :=
  t.filterMap fun e => match e with
    | .send m => some m
    | .tty _ _ => none

/-- The calls delegated so far, oldest first, each with the call stack at
the time of the call. -/
def calls_of (t : List Event) : List (String × List String) :=
  t.filterMap fun e => match e with
    | .send _ => none
    | .tty call stack => some (call, stack)

/-- A call into the real interface subsystem. -/
def World.delegate (w : World) (call : String) : World :=
  { w with trace := w.trace ++ [Event.tty call w.win_proc_calls] }

/-- The world after a call into the real interface subsystem that was made
with the given tags on top of the call stack, once those scopes are left. -/
def World.called (w : World) (call : String) (frames : List String) : World :=
  { w with trace := w.trace ++ [Event.tty call (w.win_proc_calls ++ frames)] }

/-- The call zmq_socket_.send(m). -/
def World.send (w : World) (m : fbs.Message) : World :=
  { w with trace := w.trace ++ [Event.send m] }

/-- The class ScopedStack around the rest of the enclosing function body:
the constructor pushes the tag, the destructor pops the back of the deque
when the scope is left, whichever return statement leaves it. -/
def ScopedStack {α : Type} (tag : String) (body : World → Except Fault (α × World))
    (w : World) : Except Fault (α × World) :=
  match body { w with win_proc_calls := w.win_proc_calls ++ [tag] } with
  | .error f => .error f
  | .ok (a, w1) => .ok (a, { w1 with win_proc_calls := w1.win_proc_calls.dropLast })

/-! ## Methods of NetHackRL -/

/-- The flat offset that store_glyph and store_mapped_glyph compute in their
first three statements (the same in both): the remainders are the truncating
ones of C on int, each is then converted to size_t, and the sum is taken in
size_t. -/
def grid_offset (K : HostDecls) (x y : Int) : Nat :=
  let i := to_size_t (Int.tmod (x - 1) ((K.COLNO : Int) - 1))
  let j := to_size_t (Int.tmod y (K.ROWNO : Int))
  (j * to_size_t ((K.COLNO : Int) - 1) + i) % 18446744073709551616

/-- The method store_glyph: the glyph is narrowed to int16_t on the store;
an offset outside the array is a fault. -/
def store_glyph (K : HostDecls) (self : NetHackRL) (x y glyph : Int) :
    Except Fault NetHackRL :=
  let offset := grid_offset K x y
  if offset < K.cells then
    .ok { self with glyphs_ := self.glyphs_.set offset (to_int16 glyph) }
  else .error .out_of_range

/-- The method store_mapped_glyph: the three values are narrowed to uint8_t
on the store; an offset outside the arrays is a fault. -/
def store_mapped_glyph (K : HostDecls) (self : NetHackRL) (ch color special x y : Int) :
    Except Fault NetHackRL :=
  let offset := grid_offset K x y
  if offset < K.cells then
    .ok { self with
      chars_ := self.chars_.set offset (to_uint8 ch)
      colors_ := self.colors_.set offset (to_uint8 color)
      specials_ := self.specials_.set offset (to_uint8 special) }
  else .error .out_of_range

/-- The argument ptr of status_update, a genericptr_t: what it yields when
read through a long pointer and when read as a C string. -/
structure genericptr_t where
  as_long : Int
  as_text : String
deriving DecidableEq

/-- The method status_update_method. The host function decode_mixed is an
argument. The last store indexes status_, an array of MAXBLSTATS strings. -/
def status_update_method (K : HostDecls) (decode_mixed : String → String)
    (self : NetHackRL) (fldidx : Int) (ptr : genericptr_t) : Except Fault NetHackRL :=
  if fldidx < K.BL_RESET ∨ fldidx ≥ (K.MAXBLSTATS : Int) then .ok self
  else if fldidx = K.BL_FLUSH ∨ fldidx = K.BL_RESET then .ok self
  else if fldidx = (K.BL_CONDITION : Int) then
    .ok { self with condition_bits_ := ptr.as_long }
  else
    let text := ptr.as_text
    let status := if fldidx = (K.BL_GOLD : Int) then decode_mixed text else text
    if 0 ≤ fldidx ∧ fldidx.toNat < K.MAXBLSTATS then
      .ok { self with status_ := self.status_.set fldidx.toNat status }
    else .error .out_of_range

/-- The method putstr_method. -/
def putstr_method (self : NetHackRL) (wid : Nat) (_attr : Int) (str : String) :
    Except Fault NetHackRL :=
  match self.windows_[wid]? with
  | none => .error .out_of_range
  | some none => .error .null_deref
  | some (some win) =>
    .ok { self with
      windows_ := self.windows_.set wid (some { win with strings := win.strings ++ [str] }) }

/-- The method create_nhwindow_method; wid is the handle that
tty_create_nhwindow returns. The local string window_type only feeds the
disabled debug output and is left out. -/
def create_nhwindow_method (self : NetHackRL) (type : Int) (wid : Nat) (w : World) :
    Except Fault ((Nat × NetHackRL) × World) :=
  ScopedStack "create_nhwindow" (fun w =>
    let w1 := w.delegate "tty_create_nhwindow"
    let ws := resize self.windows_ (wid + 1)
    match ws[wid]? with
    | some none =>
      .ok ((wid, { self with windows_ := ws.set wid (some { type := type }) }), w1)
    | some (some _) => .error .assertion
    | none => .error .out_of_range) w

/-- The method clear_nhwindow_method. -/
def clear_nhwindow_method (K : HostDecls) (host : Host) (self : NetHackRL) (wid : Nat)
    (w : World) : Except Fault ((Unit × NetHackRL) × World) :=
  match self.windows_[wid]? with
  | none => .error .out_of_range
  | some none => .error .null_deref
  | some (some rl_win) =>
    let self1 := { self with
      windows_ := self.windows_.set wid (some { rl_win with menu_items := [], strings := [] }) }
    let self2 :=
      if (wid : Int) = host.WIN_MAP then
        { self1 with
          glyphs_ := List.replicate K.cells 0
          chars_ := List.replicate K.cells 32
          colors_ := List.replicate K.cells 0
          specials_ := List.replicate K.cells 0 }
      else self1
    .ok (((), self2), w.delegate "tty_clear_nhwindow")

/-- The method display_nhwindow_method. -/
def display_nhwindow_method (self : NetHackRL) (_wid : Nat) (_block : Bool) (w : World) :
    Except Fault ((Unit × NetHackRL) × World) :=
  .ok (((), self), w.delegate "tty_display_nhwindow")

/-- The method destroy_nhwindow_method. -/
def destroy_nhwindow_method (self : NetHackRL) (wid : Nat) (w : World) :
    Except Fault ((Unit × NetHackRL) × World) :=
  if wid < self.windows_.length then
    .ok (((), { self with windows_ := self.windows_.set wid none }),
      w.delegate "tty_destroy_nhwindow")
  else .error .out_of_range

/-- The method start_menu_method. -/
def start_menu_method (self : NetHackRL) (wid : Nat) (w : World) :
    Except Fault ((Unit × NetHackRL) × World) :=
  let w1 := w.delegate "tty_start_menu"
  match self.windows_[wid]? with
  | none => .error .out_of_range
  | some none => .error .null_deref
  | some (some win) =>
    .ok (((), { self with windows_ := self.windows_.set wid (some { win with menu_items := [] }) }),
      w1)

/-- The method add_menu_method. Its parameters ch and gch have type char, so
the int values that rl_add_menu passes are narrowed on the call; the bool
parameter preselected is a Bool throughout. -/
def add_menu_method (self : NetHackRL) (wid : Nat) (glyph : Int) (identifier : Nat)
    (ch gch attr : Int) (str : String) (preselected : Bool) (w : World) :
    Except Fault ((Unit × NetHackRL) × World) :=
  let ch := to_char ch
  let gch := to_char gch
  let w1 := w.delegate "tty_add_menu"
  match self.windows_[wid]? with
  | none => .error .out_of_range
  | some none => .error .null_deref
  | some (some win) =>
    let item : rl_menu_item :=
      { glyph := glyph, identifier := identifier, count := -1, str := str, attr := attr,
        selected := preselected, selector := ch, gselector := gch }
    .ok (((), { self with
        windows_ := self.windows_.set wid (some { win with menu_items := win.menu_items ++ [item] }) }),
      w1)

/-- The method update_inventory_method. The argument invent is the chain of
carried objects of the host, each already summarised by the host functions
obj_to_glyph, doname and let_to_name. -/
def update_inventory_method (self : NetHackRL) (invent : List rl_inventory_item) :
    NetHackRL :=
  { self with inventory_ := invent }

/-- The method player_selection_method. -/
def player_selection_method (self : NetHackRL) : Except Fault NetHackRL :=
  match self.windows_[BASE_WINDOW]? with
  | none => .error .out_of_range
  | some none => .error .null_deref
  | some (some win) =>
    .ok { self with windows_ := self.windows_.set BASE_WINDOW (some { win with strings := [] }) }

/-! ## The snapshot encoder -/

/-- One pass of the loop over rl_win->menu_items in observation_message. -/
def encode_menu_item (item : rl_menu_item) : fbs.MenuItem :=
  { glyph := item.glyph, selector := item.selector, gselector := item.gselector,
    str := item.str, selected := item.selected }

/-- The body of the loop over windows_ for a non-empty pointer: a vector is
only created, and its offset assigned, when it has an element. -/
def encode_window (rl_win : rl_window) : fbs.Window :=
  let strings_vector := rl_win.strings
  let fb_strings := if strings_vector.isEmpty then none else some strings_vector
  let items_vector := rl_win.menu_items.map encode_menu_item
  let fb_items := if items_vector.isEmpty then none else some items_vector
  { type := rl_win.type, menu_items := fb_items, strings := fb_strings }

/-- The loop over windows_: empty pointers are skipped, every other window
is pushed onto windows_vector in the order of the handles. -/
def encode_windows : List (Option rl_window) → List fbs.Window
  | [] => []
  | none :: rest => encode_windows rest
  | some rl_win :: rest => encode_window rl_win :: encode_windows rest

/-- The struct Condition that observation_message builds from condition_bits_. -/
def encode_condition (K : HostDecls) (condition_bits_ : Int) : fbs.Condition :=
  { stoned := decide (Int.land condition_bits_ K.BL_MASK_STONE = K.BL_MASK_STONE)
    slimed := decide (Int.land condition_bits_ K.BL_MASK_SLIME = K.BL_MASK_SLIME)
    strangled := decide (Int.land condition_bits_ K.BL_MASK_STRNGL = K.BL_MASK_STRNGL)
    food_poisoning := decide (Int.land condition_bits_ K.BL_MASK_FOODPOIS = K.BL_MASK_FOODPOIS)
    terminally_ill := decide (Int.land condition_bits_ K.BL_MASK_TERMILL = K.BL_MASK_TERMILL)
    blind := decide (Int.land condition_bits_ K.BL_MASK_BLIND = K.BL_MASK_BLIND)
    deaf := decide (Int.land condition_bits_ K.BL_MASK_DEAF = K.BL_MASK_DEAF)
    stunned := decide (Int.land condition_bits_ K.BL_MASK_STUN = K.BL_MASK_STUN)
    confused := decide (Int.land condition_bits_ K.BL_MASK_CONF = K.BL_MASK_CONF)
    hallucinating := decide (Int.land condition_bits_ K.BL_MASK_HALLU = K.BL_MASK_HALLU)
    levitating := decide (Int.land condition_bits_ K.BL_MASK_LEV = K.BL_MASK_LEV)
    flying := decide (Int.land condition_bits_ K.BL_MASK_FLY = K.BL_MASK_FLY)
    riding := decide (Int.land condition_bits_ K.BL_MASK_RIDE = K.BL_MASK_RIDE) }

/-- The read status_[i] of the encoder; status_ has MAXBLSTATS elements. -/
def status_at (self : NetHackRL) (i : Nat) : String := self.status_.getD i ""

/-- The table Status that observation_message builds. -/
def encode_status (K : HostDecls) (self : NetHackRL) : fbs.Status :=
  { title := status_at self K.BL_TITLE
    strength := status_at self K.BL_STR
    dexterity := status_at self K.BL_DX
    constitution := status_at self K.BL_CO
    intelligence := status_at self K.BL_IN
    wisdom := status_at self K.BL_WI
    charisma := status_at self K.BL_CH
    alignment := status_at self K.BL_ALIGN
    score := status_at self K.BL_SCORE
    carrying_capacity := status_at self K.BL_CAP
    gold := status_at self K.BL_GOLD
    energy := status_at self K.BL_ENE
    max_energy := status_at self K.BL_ENEMAX
    experience_level := status_at self K.BL_XP
    armor_class := status_at self K.BL_AC
    monster_level := status_at self K.BL_HD
    time := status_at self K.BL_TIME
    hunger := status_at self K.BL_HUNGER
    hitpoints := status_at self K.BL_HP
    max_hitpoints := status_at self K.BL_HPMAX
    dungeon_level := status_at self K.BL_LEVELDESC
    experience_points := status_at self K.BL_EXP
    condition := encode_condition K self.condition_bits_ }

/-- The table Observation that observation_message builds: the four grid
arrays with shape ROWNO by COLNO - 1 and their numpy type numbers, the
status and the inventory. -/
def encode_observation (K : HostDecls) (self : NetHackRL) : fbs.Observation :=
  let shape : List Int := [(K.ROWNO : Int), (K.COLNO : Int) - 1]
  { glyphs := { shape := shape, dtype := 3, data := self.glyphs_ }
    chars := { shape := shape, dtype := 2, data := self.chars_.map Int.ofNat }
    colors := { shape := shape, dtype := 2, data := self.colors_.map Int.ofNat }
    specials := { shape := shape, dtype := 2, data := self.specials_.map Int.ofNat }
    status := encode_status K self
    inventory := self.inventory_.map fun item =>
      { glyph := item.glyph, str := item.str, letter := item.letter,
        object_class := item.object_class, object_class_name := item.object_class_name } }

/-- The local int16_t hitpoints of observation_message. -/
def encode_hitpoints (host : Host) : Int :=
  let i := if host.Upolyd then host.u_mh else host.u_uhp
  let i := if i < 0 then 0 else i
  to_int16 (min i 9999)

/-- The local int16_t max_hitpoints of observation_message. -/
def encode_max_hitpoints (host : Host) : Int :=
  let i := if host.Upolyd then host.u_mhmax else host.u_uhpmax
  to_int16 (min i 9999)

/-- The struct Blstats that observation_message builds. -/
def encode_blstats (host : Host) : fbs.Blstats :=
  { x := host.u_ux - 1
    y := host.u_uy
    strength_percentage := host.ACURRSTR
    strength := host.ACURR_A_STR
    dexterity := host.ACURR_A_DEX
    constitution := host.ACURR_A_CON
    intelligence := host.ACURR_A_INT
    wisdom := host.ACURR_A_WIS
    charisma := host.ACURR_A_CHA
    score := host.botl_score
    hitpoints := encode_hitpoints host
    max_hitpoints := encode_max_hitpoints host
    depth := host.depth_uz
    gold := host.money_cnt_invent
    energy := min host.u_uen 9999
    max_energy := min host.u_uenmax 9999
    armor_class := host.u_uac
    monster_level := if host.Upolyd then host.mons_umonnum_mlevel else 0
    experience_level := host.u_ulevel
    experience_points := host.u_uexp
    time := host.moves
    hunger_state := host.u_uhs
    carrying_capacity := host.near_capacity }

/-- The struct You that observation_message builds. -/
def encode_you (host : Host) : fbs.You :=
  { ux := host.u_ux, uy := host.u_uy, ux0 := host.u_ux0, uy0 := host.u_uy0
    uz := { dnum := host.u_uz_dnum, dlevel := host.u_uz_dlevel }
    uz0 := { dnum := host.u_uz0_dnum, dlevel := host.u_uz0_dlevel }
    uhunger := host.u_uhunger }

/-- The table Internal that observation_message builds; the call stack is
the deque win_proc_calls from front to back. -/
def encode_internal (host : Host) (win_proc_calls : List String) : fbs.Internal :=
  let fb_killer_name :=
    if host.gameover ∧ host.killer_name ≠ "" then some host.killer_name else none
  let stairs_down : Bool :=
    (decide (host.u_ux = host.xdnstair) && decide (host.u_uy = host.ydnstair))
    || (decide (host.u_ux = host.sstairs_sx) && decide (host.u_uy = host.sstairs_sy)
        && !host.sstairs_up)
  { deepest_lev_reached := host.deepest_lev_reached
    call_stack := win_proc_calls
    killer_name := fb_killer_name
    xwaitingforspace := host.xwaitingforspace
    stairs_down := stairs_down }

/-- The method observation_message: the message it returns, given the host
facts and the contents of win_proc_calls at the time of the call. -/
def observation_message (K : HostDecls) (host : Host) (win_proc_calls : List String)
    (self : NetHackRL) : fbs.Message :=
  let fb_windows := encode_windows self.windows_
  let fb_seeds : fbs.Seeds := { core := host.nle_seeds_0, disp := host.nle_seeds_1 }
  let fb_program_state : fbs.ProgramState :=
    { gameover := host.gameover, panicking := host.panicking, exiting := host.exiting,
      in_moveloop := host.in_moveloop, in_impossible := host.in_impossible }
  if !host.in_moveloop then
    fbs.CreateMessage none none none (some fb_windows) none (some fb_program_state)
      (some fb_seeds)
  else
    fbs.CreateMessage (some (encode_observation K self)) (some (encode_blstats host))
      (some (encode_you host)) (some fb_windows)
      (some (encode_internal host win_proc_calls)) (some fb_program_state) (some fb_seeds)
      false

/-- The message that the destructor builds: every table and struct argument
is 0 and terminated is true. -/
def sentinel_message : fbs.Message :=
  fbs.CreateMessage none none none none none none none true

/-- The destructor of NetHackRL: the sentinel is sent on the socket (the
unbind that follows leaves no event). -/
def NetHackRL.dtor (w : World) : World := w.send sentinel_message

/-- The method getch_method; key is the value that tty_nhgetch returns. -/
def getch_method (K : HostDecls) (host : Host) (self : NetHackRL) (key : Int) (w : World) :
    Except Fault ((Int × NetHackRL) × World) :=
  let w1 := w.send (observation_message K host w.win_proc_calls self)
  .ok ((key, self), w1.delegate "tty_nhgetch")

/-! ## The entry points of the window_procs table -/

/-- A call instance->m(...): a fault when instance is empty, else the method
runs on the object and the object keeps what the method did to it. -/
def through_instance {α : Type}
    (m : NetHackRL → World → Except Fault ((α × NetHackRL) × World)) (w : World) :
    Except Fault (α × World) :=
  match w.instance_ with
  | none => .error .null_deref
  | some self =>
    match m self w with
    | .error f => .error f
    | .ok ((a, self1), w1) => .ok (a, { w1 with instance_ := some self1 })

/-- A method that touches nothing outside the object, as a method on the world. -/
def on_object (m : NetHackRL → Except Fault NetHackRL) (self : NetHackRL) (w : World) :
    Except Fault ((Unit × NetHackRL) × World) :=
  match m self with
  | .error f => .error f
  | .ok self1 => .ok (((), self1), w)

/-- The effect of instance.reset(nullptr): the destructor runs when there is
an object. -/
def reset_instance (w : World) : World :=
  match w.instance_ with
  | none => w
  | some _ => { NetHackRL.dtor w with instance_ := none }

/-- The shape shared by the entry points that push their tag and call one
function of the real interface subsystem. -/
def passthrough (tag call : String) (w : World) : Except Fault (Unit × World) :=
  ScopedStack tag (fun w => .ok ((), w.delegate call)) w

/-- The entry point rl_init_nhwindows. The new object is constructed (the
bind may throw), then the assignment to instance destroys the object that
instance held before, if any. -/
def rl_init_nhwindows (K : HostDecls) (u : Indeterminate) (bind_ok : Bool) (w : World) :
    Except Fault (Unit × World) :=
  ScopedStack "init_nhwindows" (fun w =>
    if bind_ok then
      let w1 := match w.instance_ with
        | none => w
        | some _ => NetHackRL.dtor w
      .ok ((), ({ w1 with instance_ := some (NetHackRL.ctor K u) }).delegate "tty_init_nhwindows")
    else .error .bind_failed) w

/-- The entry point rl_player_selection. -/
def rl_player_selection (w : World) : Except Fault (Unit × World) :=
  ScopedStack "player_selection" (fun w =>
    through_instance (on_object player_selection_method) (w.delegate "tty_player_selection")) w

/-- The entry point rl_askname. -/
def rl_askname : World → Except Fault (Unit × World) := passthrough "askname" "tty_askname"

/-- The entry point rl_get_nh_event. -/
def rl_get_nh_event : World → Except Fault (Unit × World) :=
  passthrough "get_nh_event" "tty_get_nh_event"

/-- The entry point rl_exit_nhwindows. -/
def rl_exit_nhwindows (w : World) : Except Fault (Unit × World) :=
  ScopedStack "exit_nhwindows" (fun w =>
    .ok ((), (reset_instance w).delegate "tty_exit_nhwindows")) w

/-- The entry point rl_suspend_nhwindows. -/
def rl_suspend_nhwindows : World → Except Fault (Unit × World) :=
  passthrough "suspend_nhwindows" "tty_suspend_nhwindows"

/-- The entry point rl_resume_nhwindows. -/
def rl_resume_nhwindows : World → Except Fault (Unit × World) :=
  passthrough "resume_nhwindows" "tty_resume_nhwindows"

/-- The entry point rl_create_nhwindow. -/
def rl_create_nhwindow (type : Int) (wid : Nat) (w : World) : Except Fault (Nat × World) :=
  through_instance (fun self => create_nhwindow_method self type wid) w

/-- The entry point rl_clear_nhwindow. -/
def rl_clear_nhwindow (K : HostDecls) (host : Host) (wid : Nat) (w : World) :
    Except Fault (Unit × World) :=
  ScopedStack "clear_nhwindow"
    (through_instance (fun self => clear_nhwindow_method K host self wid)) w

/-- The entry point rl_display_nhwindow. -/
def rl_display_nhwindow (wid : Nat) (block : Bool) (w : World) : Except Fault (Unit × World) :=
  ScopedStack "display_nhwindow"
    (through_instance (fun self => display_nhwindow_method self wid block)) w

/-- The entry point rl_destroy_nhwindow. -/
def rl_destroy_nhwindow (wid : Nat) (w : World) : Except Fault (Unit × World) :=
  ScopedStack "destroy_nhwindow"
    (through_instance (fun self => destroy_nhwindow_method self wid)) w

/-- The entry point rl_curs. -/
def rl_curs : World → Except Fault (Unit × World) := passthrough "curs" "tty_curs"

/-- The entry point rl_putstr. -/
def rl_putstr (wid : Nat) (attr : Int) (text : String) (w : World) :
    Except Fault (Unit × World) :=
  ScopedStack "putstr" (fun w =>
    match through_instance (on_object fun self => putstr_method self wid attr text) w with
    | .error f => .error f
    | .ok (_, w1) => .ok ((), w1.delegate "tty_putstr")) w

/-- The entry point rl_display_file. -/
def rl_display_file : World → Except Fault (Unit × World) :=
  passthrough "display_file" "tty_display_file"

/-- The entry point rl_start_menu. -/
def rl_start_menu (wid : Nat) (w : World) : Except Fault (Unit × World) :=
  ScopedStack "start_menu" (through_instance (fun self => start_menu_method self wid)) w

/-- The entry point rl_add_menu. -/
def rl_add_menu (wid : Nat) (glyph : Int) (identifier : Nat) (ch gch attr : Int)
    (str : String) (presel : Bool) (w : World) : Except Fault (Unit × World) :=
  ScopedStack "add_menu"
    (through_instance
      (fun self => add_menu_method self wid glyph identifier ch gch attr str presel)) w

/-- The entry point rl_end_menu. -/
def rl_end_menu : World → Except Fault (Unit × World) := passthrough "end_menu" "tty_end_menu"

/-- The entry point rl_select_menu; response is what tty_select_menu returns. -/
def rl_select_menu (response : Int) (w : World) : Except Fault (Int × World) :=
  ScopedStack "select_menu" (fun w => .ok (response, w.delegate "tty_select_menu")) w

/-- The entry point rl_update_inventory. -/
def rl_update_inventory (invent : List rl_inventory_item) (w : World) :
    Except Fault (Unit × World) :=
  ScopedStack "update_inventory"
    (through_instance
      (on_object fun self => Except.ok (update_inventory_method self invent))) w

/-- The entry point rl_mark_synch. -/
def rl_mark_synch : World → Except Fault (Unit × World) :=
  passthrough "mark_synch" "tty_mark_synch"

/-- The entry point rl_wait_synch. -/
def rl_wait_synch : World → Except Fault (Unit × World) :=
  passthrough "wait_synch" "tty_wait_synch"

/-- The entry point rl_cliparound. -/
def rl_cliparound (K : HostDecls) (w : World) : Except Fault (Unit × World) :=
  .ok ((), if K.CLIPPING then w.delegate "tty_cliparound" else w)

/-- The entry point rl_print_glyph; ch, color and special are what mapglyph
stores for the glyph. No tag is pushed. -/
def rl_print_glyph (K : HostDecls) (host : Host) (wid : Nat) (x y glyph : Int)
    (ch color special : Int) (w : World) : Except Fault (Unit × World) :=
  let r : Except Fault (Unit × World) :=
    if (wid : Int) = host.WIN_MAP then
      match through_instance (on_object fun self => store_glyph K self x y glyph) w with
      | .error f => .error f
      | .ok (_, w1) =>
        through_instance
          (on_object fun self => store_mapped_glyph K self ch color special x y) w1
    else .ok ((), w)
  match r with
  | .error f => .error f
  | .ok (_, w2) => .ok ((), w2.delegate "tty_print_glyph")

/-- The entry point rl_raw_print. -/
def rl_raw_print : World → Except Fault (Unit × World) :=
  passthrough "raw_print" "tty_raw_print"

/-- The entry point rl_raw_print_bold. -/
def rl_raw_print_bold : World → Except Fault (Unit × World) :=
  passthrough "raw_bold_print" "tty_raw_print_bold"

/-- The entry point rl_nhgetch; key is the value that tty_nhgetch returns. -/
def rl_nhgetch (K : HostDecls) (host : Host) (key : Int) (w : World) :
    Except Fault (Int × World) :=
  ScopedStack "nhgetch"
    (through_instance (fun self => getch_method K host self key)) w

/-- The entry point rl_nh_poskey. -/
def rl_nh_poskey (K : HostDecls) (host : Host) (key : Int) (w : World) :
    Except Fault (Int × World) :=
  ScopedStack "nh_poskey" (rl_nhgetch K host key) w

/-- The entry point rl_nhbell. -/
def rl_nhbell : World → Except Fault (Unit × World) := passthrough "nhbell" "tty_nhbell"

/-- The entry point rl_doprev_message; result is what tty_doprev_message returns. -/
def rl_doprev_message (result : Int) (w : World) : Except Fault (Int × World) :=
  ScopedStack "doprev_message" (fun w => .ok (result, w.delegate "tty_doprev_message")) w

/-- The entry point rl_yn_function; result is what tty_yn_function returns. -/
def rl_yn_function (result : Int) (w : World) : Except Fault (Int × World) :=
  ScopedStack "yn_function" (fun w => .ok (result, w.delegate "tty_yn_function")) w

/-- The entry point rl_getlin. -/
def rl_getlin : World → Except Fault (Unit × World) := passthrough "getlin" "tty_getlin"

/-- The entry point rl_get_ext_cmd; result is what tty_get_ext_cmd returns. -/
def rl_get_ext_cmd (result : Int) (w : World) : Except Fault (Int × World) :=
  ScopedStack "get_ext_cmd" (fun w => .ok (result, w.delegate "tty_get_ext_cmd")) w

/-- The entry point rl_number_pad. -/
def rl_number_pad : World → Except Fault (Unit × World) :=
  passthrough "number_pad" "tty_number_pad"

/-- The entry point rl_delay_output, which calls nothing. -/
def rl_delay_output (w : World) : Except Fault (Unit × World) := .ok ((), w)

/-- The entry point rl_start_screen. -/
def rl_start_screen : World → Except Fault (Unit × World) :=
  passthrough "start_screen" "tty_start_screen"

/-- The entry point rl_end_screen. -/
def rl_end_screen (w : World) : Except Fault (Unit × World) :=
  ScopedStack "end_screen" (fun w =>
    let w1 := w.delegate "tty_end_screen"
    .ok ((), if w1.instance_.isSome then reset_instance w1 else w1)) w

/-- The entry point rl_outrip. -/
def rl_outrip (w : World) : Except Fault (Unit × World) := .ok ((), w.delegate "genl_outrip")

/-- The entry point rl_getmsghistory; result is what tty_getmsghistory returns. -/
def rl_getmsghistory (result : String) (w : World) : Except Fault (String × World) :=
  .ok (result, w.delegate "tty_getmsghistory")

/-- The entry point rl_putmsghistory. -/
def rl_putmsghistory (w : World) : Except Fault (Unit × World) :=
  .ok ((), w.delegate "tty_putmsghistory")

/-- The entry point rl_status_init. -/
def rl_status_init : World → Except Fault (Unit × World) :=
  passthrough "status_init" "tty_status_init"

/-- The entry point rl_status_update. -/
def rl_status_update (K : HostDecls) (decode_mixed : String → String) (fldidx : Int)
    (ptr : genericptr_t) (w : World) : Except Fault (Unit × World) :=
  ScopedStack "status_update" (fun w =>
    match through_instance
        (on_object fun self => status_update_method K decode_mixed self fldidx ptr) w with
    | .error f => .error f
    | .ok (_, w1) =>
      .ok ((), if K.STATUS_HILITES then w1.delegate "tty_status_update" else w1)) w

/-- The function rl_update_positionbar. -/
def rl_update_positionbar (K : HostDecls) (w : World) : Except Fault (Unit × World) :=
  .ok ((), if K.POSITIONBAR then w.delegate "tty_update_positionbar" else w)

/-! ## Sequences of calls -/

/-- One call of the host through the window_procs table, with the arguments
the bridge looks at and the values handed back to it. -/
inductive Op where
  | init_nhwindows (u : Indeterminate) (bind_ok : Bool)
  | player_selection
  | askname
  | get_nh_event
  | exit_nhwindows
  | suspend_nhwindows
  | resume_nhwindows
  | create_nhwindow (type : Int) (wid : Nat)
  | clear_nhwindow (host : Host) (wid : Nat)
  | display_nhwindow (wid : Nat) (block : Bool)
  | destroy_nhwindow (wid : Nat)
  | curs
  | putstr (wid : Nat) (attr : Int) (text : String)
  | display_file
  | start_menu (wid : Nat)
  | add_menu (wid : Nat) (glyph : Int) (identifier : Nat) (ch gch attr : Int) (str : String)
      (presel : Bool)
  | end_menu
  | select_menu (response : Int)
  | update_inventory (invent : List rl_inventory_item)
  | mark_synch
  | wait_synch
  | cliparound
  | print_glyph (host : Host) (wid : Nat) (x y glyph ch color special : Int)
  | raw_print
  | raw_print_bold
  | nhgetch (host : Host) (key : Int)
  | nh_poskey (host : Host) (key : Int)
  | nhbell
  | doprev_message (result : Int)
  | yn_function (result : Int)
  | getlin
  | get_ext_cmd (result : Int)
  | number_pad
  | delay_output
  | start_screen
  | end_screen
  | outrip
  | getmsghistory (result : String)
  | putmsghistory
  | status_init
  | status_update (decode_mixed : String → String) (fldidx : Int) (ptr : genericptr_t)
  | update_positionbar

/-- The world after a call, its return value dropped. -/
def after {α : Type} (r : Except Fault (α × World)) : Except Fault World :=
  match r with
  | .error f => .error f
  | .ok (_, w) => .ok w

/-- The world after one call through the table. -/
def step (K : HostDecls) (w : World) : Op → Except Fault World
  | .init_nhwindows u bind_ok => after (rl_init_nhwindows K u bind_ok w)
  | .player_selection => after (rl_player_selection w)
  | .askname => after (rl_askname w)
  | .get_nh_event => after (rl_get_nh_event w)
  | .exit_nhwindows => after (rl_exit_nhwindows w)
  | .suspend_nhwindows => after (rl_suspend_nhwindows w)
  | .resume_nhwindows => after (rl_resume_nhwindows w)
  | .create_nhwindow type wid => after (rl_create_nhwindow type wid w)
  | .clear_nhwindow host wid => after (rl_clear_nhwindow K host wid w)
  | .display_nhwindow wid block => after (rl_display_nhwindow wid block w)
  | .destroy_nhwindow wid => after (rl_destroy_nhwindow wid w)
  | .curs => after (rl_curs w)
  | .putstr wid attr text => after (rl_putstr wid attr text w)
  | .display_file => after (rl_display_file w)
  | .start_menu wid => after (rl_start_menu wid w)
  | .add_menu wid glyph identifier ch gch attr str presel =>
    after (rl_add_menu wid glyph identifier ch gch attr str presel w)
  | .end_menu => after (rl_end_menu w)
  | .select_menu response => after (rl_select_menu response w)
  | .update_inventory invent => after (rl_update_inventory invent w)
  | .mark_synch => after (rl_mark_synch w)
  | .wait_synch => after (rl_wait_synch w)
  | .cliparound => after (rl_cliparound K w)
  | .print_glyph host wid x y glyph ch color special =>
    after (rl_print_glyph K host wid x y glyph ch color special w)
  | .raw_print => after (rl_raw_print w)
  | .raw_print_bold => after (rl_raw_print_bold w)
  | .nhgetch host key => after (rl_nhgetch K host key w)
  | .nh_poskey host key => after (rl_nh_poskey K host key w)
  | .nhbell => after (rl_nhbell w)
  | .doprev_message result => after (rl_doprev_message result w)
  | .yn_function result => after (rl_yn_function result w)
  | .getlin => after (rl_getlin w)
  | .get_ext_cmd result => after (rl_get_ext_cmd result w)
  | .number_pad => after (rl_number_pad w)
  | .delay_output => after (rl_delay_output w)
  | .start_screen => after (rl_start_screen w)
  | .end_screen => after (rl_end_screen w)
  | .outrip => after (rl_outrip w)
  | .getmsghistory result => after (rl_getmsghistory result w)
  | .putmsghistory => after (rl_putmsghistory w)
  | .status_init => after (rl_status_init w)
  | .status_update decode_mixed fldidx ptr =>
    after (rl_status_update K decode_mixed fldidx ptr w)
  | .update_positionbar => after (rl_update_positionbar K w)

/-- The world after a sequence of calls, the first fault ending it. -/
def run (K : HostDecls) : World → List Op → Except Fault World
  | w, [] => .ok w
  | w, op :: ops =>
    match step K w op with
    | .error f => .error f
    | .ok w1 => run K w1 ops

/-- Whether a call is rl_init_nhwindows. -/
def Op.is_init : Op → Bool
  | .init_nhwindows _ _ => true
  | _ => false

/-- Whether a call is one of the two that reset instance: rl_exit_nhwindows
and rl_end_screen. -/
def Op.is_teardown : Op → Bool
  | .exit_nhwindows => true
  | .end_screen => true
  | _ => false

/-- Whether a call belongs to the read-key family: rl_nhgetch, rl_nh_poskey. -/
def Op.is_read_key : Op → Bool
  | .nhgetch _ _ => true
  | .nh_poskey _ _ => true
  | _ => false

/-- The process before rl_init_nhwindows: no object, nothing traced. -/
def World.start : World := { instance_ := none, win_proc_calls := [], trace := [] }

/-- Indeterminate members that happen to be all zero. -/
def zeroed : Indeterminate :=
  { chars_ := fun _ => 0, colors_ := fun _ => 0, specials_ := fun _ => 0, condition_bits_ := 0 }

/-- A host before the move loop: every number 0, every flag off, no map
window yet (WIN_MAP is WIN_ERR, which is -1). -/
def idle_host : Host :=
  { nle_seeds_0 := 0, nle_seeds_1 := 0, gameover := false, panicking := false,
    exiting := false, in_moveloop := false, in_impossible := false, Upolyd := false,
    u_mh := 0, u_uhp := 0, u_mhmax := 0, u_uhpmax := 0, u_ux := 0, u_uy := 0, u_ux0 := 0,
    u_uy0 := 0, ACURRSTR := 0, ACURR_A_STR := 0, ACURR_A_DEX := 0, ACURR_A_CON := 0,
    ACURR_A_INT := 0, ACURR_A_WIS := 0, ACURR_A_CHA := 0, botl_score := 0, depth_uz := 0,
    money_cnt_invent := 0, u_uen := 0, u_uenmax := 0, u_uac := 0, mons_umonnum_mlevel := 0,
    u_ulevel := 0, u_uexp := 0, moves := 0, u_uhs := 0, near_capacity := 0, u_uz_dnum := 0,
    u_uz_dlevel := 0, u_uz0_dnum := 0, u_uz0_dlevel := 0, u_uhunger := 0, killer_name := "",
    xdnstair := 0, ydnstair := 0, sstairs_sx := 0, sstairs_sy := 0, sstairs_up := false,
    xwaitingforspace := false, deepest_lev_reached := 0, WIN_MAP := -1 }

/-! ## Sequences of create and destroy calls on one object -/

/-- A call of create_nhwindow_method (with the handle the real subsystem
returns) or of destroy_nhwindow_method. -/
inductive Call where
  | create (type : Int) (wid : Nat)
  | destroy (wid : Nat)
deriving DecidableEq

/-- The object and the world after one such call. -/
def Call.apply (self : NetHackRL) (w : World) : Call → Except Fault (NetHackRL × World)
  | .create type wid =>
    match create_nhwindow_method self type wid w with
    | .error f => .error f
    | .ok ((_, self1), w1) => .ok (self1, w1)
  | .destroy wid =>
    match destroy_nhwindow_method self wid w with
    | .error f => .error f
    | .ok ((_, self1), w1) => .ok (self1, w1)

/-- The object and the world after a sequence of such calls. -/
def run_calls (self : NetHackRL) (w : World) : List Call → Except Fault (NetHackRL × World)
  | [] => .ok (self, w)
  | c :: cs =>
    match c.apply self w with
    | .error f => .error f
    | .ok (self1, w1) => run_calls self1 w1 cs

/-- Number of create calls in a sequence. -/
def creates (cs : List Call) : Nat :=
  (cs.filter fun c => match c with | .create _ _ => true | .destroy _ => false).length

/-- Number of destroy calls in a sequence. -/
def destroys (cs : List Call) : Nat :=
  (cs.filter fun c => match c with | .create _ _ => false | .destroy _ => true).length

/-- The precondition on one call: a create returns a handle that has no live
shadow slot, a destroy names a live handle. -/
def Call.pre (ws : List (Option rl_window)) : Call → Bool
  | .create _ wid => !live ws wid
  | .destroy wid => live ws wid

/-- The further condition that a create does not return a handle below a
live one: every slot after wid is an empty pointer. -/
def Call.above_clear (ws : List (Option rl_window)) : Call → Bool
  | .create _ wid => (ws.drop (wid + 1)).all Option.isNone
  | .destroy _ => true

/-- Whether every call of a sequence meets the condition P in the state in
which it is made. -/
def admissible (P : List (Option rl_window) → Call → Bool) (self : NetHackRL) (w : World) :
    List Call → Bool
  | [] => true
  | c :: cs =>
    P self.windows_ c &&
      match c.apply self w with
      | .error _ => true
      | .ok (self1, w1) => admissible P self1 w1 cs

/-- The precondition on one call together with the condition that a create
cuts no live slot off. -/
def Call.pre_uncut (ws : List (Option rl_window)) (c : Call) : Bool :=
  c.pre ws && c.above_clear ws

/-! ## Concrete states and runs used as instances -/

/-- A host whose global WIN_MAP holds the given handle, otherwise idle. -/
def host_with_map (wid : Int) : Host := { idle_host with WIN_MAP := wid }

/-- A run in which the host makes two map-type windows, with handles 1 and 2,
records handle 2 in WIN_MAP and prints glyph 5 at (x = 1, y = 0) on it. -/
def two_map_windows : List Op :=
  [.init_nhwindows zeroed true,
   .create_nhwindow nethack36.NHW_MAP 1,
   .create_nhwindow nethack36.NHW_MAP 2,
   .print_glyph (host_with_map 2) 2 1 0 5 64 7 0]

/-- A run in which the host makes one map-type window, with handle 1,
records it in WIN_MAP and prints glyph 5 at (x = 1, y = 0) on it. -/
def one_map_window : List Op :=
  [.init_nhwindows zeroed true,
   .create_nhwindow nethack36.NHW_MAP 1,
   .print_glyph (host_with_map 1) 1 1 0 5 64 7 0]

/-- The bridge object that the run one_map_window leaves. -/
def one_map_object : NetHackRL :=
  { NetHackRL.ctor nethack36 zeroed with
    windows_ := [some { type := nethack36.NHW_BASE }, some { type := nethack36.NHW_MAP }]
    glyphs_ := (List.replicate nethack36.cells 0).set 0 5
    chars_ := ((List.range nethack36.cells).map fun i => zeroed.chars_ i % 256).set 0 64
    colors_ := ((List.range nethack36.cells).map fun i => zeroed.colors_ i % 256).set 0 7
    specials_ := ((List.range nethack36.cells).map fun i => zeroed.specials_ i % 256).set 0 0 }

/-- A host in the move loop whose player, not polymorphed, has 12000 hit
points. -/
def host_hp_12000 : Host := { idle_host with in_moveloop := true, u_uhp := 12000 }

/-! ## Predicates on calls -/

/-- A call that, when it returns, has sent nothing, has neither made nor
destroyed the bridge object, and has left win_proc_calls as it found it. -/
def Quiet {α : Type} (f : World → Except Fault (α × World)) : Prop :=
  ∀ w a w1, f w = .ok (a, w1) →
    sent w1.trace = sent w.trace ∧ w1.instance_.isSome = w.instance_.isSome ∧
      w1.win_proc_calls = w.win_proc_calls

/-- A method that, when it returns, has sent nothing and has left the static
member instance and win_proc_calls as it found them. -/
def QuietMethod {α : Type}
    (m : NetHackRL → World → Except Fault ((α × NetHackRL) × World)) : Prop :=
  ∀ self w a s w1, m self w = .ok ((a, s), w1) →
    sent w1.trace = sent w.trace ∧ w1.instance_ = w.instance_ ∧
      w1.win_proc_calls = w.win_proc_calls

/-- Where a run stands with respect to the sentinel: either the bridge object
exists and no message sent so far is terminated, or there is no object and
the last message sent is the sentinel, no message before it being
terminated. -/
def sentinel_state (w : World) : Prop :=
  (w.instance_.isSome = true ∧ ∀ m ∈ sent w.trace, m.terminated = false) ∨
  (w.instance_ = none ∧
    ∃ pre, sent w.trace = pre ++ [sentinel_message] ∧ ∀ m ∈ pre, m.terminated = false)

/-- The calls of a short game that never enters the move loop, after init: a
window with one line of text, one key read, exit. -/
def short_game : List Op :=
  [.create_nhwindow nethack36.NHW_MENU 1,
   .putstr 1 0 "Hello",
   .nhgetch idle_host 113,
   .exit_nhwindows]

/-! ## Notions used to state the claims about windows, menus and status -/

/-- The live shadow windows with their handles, in ascending handle order,
the first slot of the list having handle n. -/
def live_from (n : Nat) : List (Option rl_window) → List (Nat × rl_window)
  | [] => []
  | none :: rest => live_from (n + 1) rest
  | some win :: rest => (n, win) :: live_from (n + 1) rest

/-- The arguments of one add_menu call that the bridge looks at, as the
caller passes them: ch and gch are ints (CHAR_P). -/
structure menu_args where
  glyph : Int
  identifier : Nat
  ch : Int
  gch : Int
  attr : Int
  str : String
  preselected : Bool
deriving DecidableEq

/-- The shadow record that add_menu_method makes of one call. -/
def menu_args.item (e : menu_args) : rl_menu_item :=
  { glyph := e.glyph, identifier := e.identifier, count := -1, str := e.str, attr := e.attr,
    selected := e.preselected, selector := to_char e.ch, gselector := to_char e.gch }

/-- What the snapshot lists for one add_menu call: glyph, selector, group
selector, label and selected flag, the two selectors as the chars that the
method receives. -/
def menu_args.entry (e : menu_args) : fbs.MenuItem :=
  { glyph := e.glyph, selector := to_char e.ch, gselector := to_char e.gch, str := e.str,
    selected := e.preselected }

/-- Whether both selectors of an add_menu call are values of type char. -/
def menu_args.chars_ok (e : menu_args) : Prop :=
  (-128 ≤ e.ch ∧ e.ch ≤ 127) ∧ (-128 ≤ e.gch ∧ e.gch ≤ 127)

/-- Successive add_menu_method calls on one window, one per element. -/
def add_menu_all (wid : Nat) : NetHackRL → World → List menu_args →
    Except Fault (NetHackRL × World)
  | self, w, [] => .ok (self, w)
  | self, w, e :: es =>
    match add_menu_method self wid e.glyph e.identifier e.ch e.gch e.attr e.str e.preselected w with
    | .error f => .error f
    | .ok ((_, self1), w1) => add_menu_all wid self1 w1 es

/-- A start_menu_method call followed by one add_menu_method call per element. -/
def start_and_add (self : NetHackRL) (wid : Nat) (w : World) (es : List menu_args) :
    Except Fault (NetHackRL × World) :=
  match start_menu_method self wid w with
  | .error f => .error f
  | .ok ((_, self1), w1) => add_menu_all wid self1 w1 es

/-- The two menu entries Attack and Wait. -/
def attack_wait : List menu_args :=
  [{ glyph := 0, identifier := 1, ch := 97, gch := 0, attr := 0, str := "Attack",
     preselected := false },
   { glyph := 0, identifier := 2, ch := 98, gch := 0, attr := 0, str := "Wait",
     preselected := false }]

/-- A bridge object whose window 1 is a menu that still holds an old item. -/
def menu_object : NetHackRL :=
  { NetHackRL.ctor nethack36 zeroed with
    windows_ := [some { type := nethack36.NHW_BASE },
      some { type := nethack36.NHW_MENU,
             menu_items := [{ glyph := 7, identifier := 9, count := -1, str := "Old", attr := 0,
                              selected := true, selector := 122, gselector := 0 }] }] }

/-- A host in the move loop whose player, not polymorphed, has a maximum of
-40000 hit points. -/
def host_hpmax_low : Host := { idle_host with in_moveloop := true, u_uhpmax := -40000 }

/-- The property of the status-field enumeration that the two reserved
indices are its only values below zero that pass the range check. -/
def HostDecls.reserved_below_zero (K : HostDecls) : Prop :=
  ∀ i : Int, K.BL_RESET ≤ i → i < 0 → i = K.BL_RESET ∨ i = K.BL_FLUSH

/-! ## The tags and calls of the entry points -/

/-- The tag that an entry point hands to its ScopedStack (for
rl_create_nhwindow the scope is in the method it calls); none for the entry
points that push nothing. -/
def Op.tag : Op → Option String
  | .init_nhwindows _ _ => some "init_nhwindows"
  | .player_selection => some "player_selection"
  | .askname => some "askname"
  | .get_nh_event => some "get_nh_event"
  | .exit_nhwindows => some "exit_nhwindows"
  | .suspend_nhwindows => some "suspend_nhwindows"
  | .resume_nhwindows => some "resume_nhwindows"
  | .create_nhwindow _ _ => some "create_nhwindow"
  | .clear_nhwindow _ _ => some "clear_nhwindow"
  | .display_nhwindow _ _ => some "display_nhwindow"
  | .destroy_nhwindow _ => some "destroy_nhwindow"
  | .curs => some "curs"
  | .putstr _ _ _ => some "putstr"
  | .display_file => some "display_file"
  | .start_menu _ => some "start_menu"
  | .add_menu _ _ _ _ _ _ _ _ => some "add_menu"
  | .end_menu => some "end_menu"
  | .select_menu _ => some "select_menu"
  | .update_inventory _ => some "update_inventory"
  | .mark_synch => some "mark_synch"
  | .wait_synch => some "wait_synch"
  | .cliparound => none
  | .print_glyph _ _ _ _ _ _ _ _ => none
  | .raw_print => some "raw_print"
  | .raw_print_bold => some "raw_bold_print"
  | .nhgetch _ _ => some "nhgetch"
  | .nh_poskey _ _ => some "nh_poskey"
  | .nhbell => some "nhbell"
  | .doprev_message _ => some "doprev_message"
  | .yn_function _ => some "yn_function"
  | .getlin => some "getlin"
  | .get_ext_cmd _ => some "get_ext_cmd"
  | .number_pad => some "number_pad"
  | .delay_output => none
  | .start_screen => some "start_screen"
  | .end_screen => some "end_screen"
  | .outrip => none
  | .getmsghistory _ => none
  | .putmsghistory => none
  | .status_init => some "status_init"
  | .status_update _ _ _ => some "status_update"
  | .update_positionbar => none

/-- The tags on top of the call stack when the body of an entry point calls
out or encodes: its own tag, if it has one, and for rl_nh_poskey, whose body
is the call of rl_nhgetch, the tag of that below it. -/
def Op.frames : Op → List String
  | .nh_poskey _ _ => ["nh_poskey", "nhgetch"]
  | op => op.tag.toList

/-- The functions outside the bridge that the body of an entry point calls,
in call order, when it returns. -/
def Op.calls (K : HostDecls) : Op → List String
  | .init_nhwindows _ _ => ["tty_init_nhwindows"]
  | .player_selection => ["tty_player_selection"]
  | .askname => ["tty_askname"]
  | .get_nh_event => ["tty_get_nh_event"]
  | .exit_nhwindows => ["tty_exit_nhwindows"]
  | .suspend_nhwindows => ["tty_suspend_nhwindows"]
  | .resume_nhwindows => ["tty_resume_nhwindows"]
  | .create_nhwindow _ _ => ["tty_create_nhwindow"]
  | .clear_nhwindow _ _ => ["tty_clear_nhwindow"]
  | .display_nhwindow _ _ => ["tty_display_nhwindow"]
  | .destroy_nhwindow _ => ["tty_destroy_nhwindow"]
  | .curs => ["tty_curs"]
  | .putstr _ _ _ => ["tty_putstr"]
  | .display_file => ["tty_display_file"]
  | .start_menu _ => ["tty_start_menu"]
  | .add_menu _ _ _ _ _ _ _ _ => ["tty_add_menu"]
  | .end_menu => ["tty_end_menu"]
  | .select_menu _ => ["tty_select_menu"]
  | .update_inventory _ => []
  | .mark_synch => ["tty_mark_synch"]
  | .wait_synch => ["tty_wait_synch"]
  | .cliparound => if K.CLIPPING then ["tty_cliparound"] else []
  | .print_glyph _ _ _ _ _ _ _ _ => ["tty_print_glyph"]
  | .raw_print => ["tty_raw_print"]
  | .raw_print_bold => ["tty_raw_print_bold"]
  | .nhgetch _ _ => ["tty_nhgetch"]
  | .nh_poskey _ _ => ["tty_nhgetch"]
  | .nhbell => ["tty_nhbell"]
  | .doprev_message _ => ["tty_doprev_message"]
  | .yn_function _ => ["tty_yn_function"]
  | .getlin => ["tty_getlin"]
  | .get_ext_cmd _ => ["tty_get_ext_cmd"]
  | .number_pad => ["tty_number_pad"]
  | .delay_output => []
  | .start_screen => ["tty_start_screen"]
  | .end_screen => ["tty_end_screen"]
  | .outrip => ["genl_outrip"]
  | .getmsghistory _ => ["tty_getmsghistory"]
  | .putmsghistory => ["tty_putmsghistory"]
  | .status_init => ["tty_status_init"]
  | .status_update _ _ _ => if K.STATUS_HILITES then ["tty_status_update"] else []
  | .update_positionbar => if K.POSITIONBAR then ["tty_update_positionbar"] else []

/-- A call that, when it returns, has made exactly the calls cs, each with
the tags fr on top of the call stack it was entered with, and has left
win_proc_calls as it found it. -/
def Emits {α : Type} (cs fr : List String) (f : World → Except Fault (α × World)) : Prop :=
  ∀ w a w1, f w = .ok (a, w1) →
    calls_of w1.trace = calls_of w.trace ++ cs.map (fun c => (c, w.win_proc_calls ++ fr)) ∧
      w1.win_proc_calls = w.win_proc_calls

/-- The arguments of one add_menu call as a snapshot item with nothing
narrowed: glyph, selector, group selector, label and selected flag as passed. -/
def menu_args.verbatim (e : menu_args) : fbs.MenuItem :=
  { glyph := e.glyph, selector := e.ch, gselector := e.gch, str := e.str,
    selected := e.preselected }

/-! # Properties -/

theorem live_eq_true_iff (ws : List (Option rl_window)) (i : Nat) :
    live ws i = true ↔ ∃ win, ws[i]? = some (some win) := by
  unfold live
  split
  · next win h => simp [h]
  · next h =>
    simp only [Bool.false_eq_true, false_iff, not_exists]
    intro win hw
    exact h win hw

theorem live_eq_false_iff (ws : List (Option rl_window)) (i : Nat) :
    live ws i = false ↔ (ws[i]? = none ∨ ws[i]? = some none) := by
  unfold live
  split
  · next win h => simp [h]
  · next h =>
    simp only [true_iff]
    match hw : ws[i]? with
    | none => simp
    | some none => simp
    | some (some win) => exact absurd hw (h win)

theorem live_lt_length {ws : List (Option rl_window)} {i : Nat} (h : live ws i = true) :
    i < ws.length := by
  obtain ⟨win, hw⟩ := (live_eq_true_iff ws i).1 h
  exact (List.getElem?_eq_some_iff.1 hw).1

theorem live_count_nil : live_count [] = 0 := rfl

theorem live_count_cons (a : Option rl_window) (ws : List (Option rl_window)) :
    live_count (a :: ws) = (if a.isSome then 1 else 0) + live_count ws := by
  unfold live_count
  cases a <;> simp [List.filter_cons, Nat.add_comm]

theorem live_count_append (xs ys : List (Option rl_window)) :
    live_count (xs ++ ys) = live_count xs + live_count ys := by
  simp [live_count]

theorem live_count_replicate_none (n : Nat) : live_count (List.replicate n none) = 0 := by
  induction n with
  | zero => rfl
  | succ n ih => simp [List.replicate_succ, live_count_cons, ih]

theorem live_count_all_none {ws : List (Option rl_window)}
    (h : ws.all Option.isNone = true) : live_count ws = 0 := by
  induction ws with
  | nil => rfl
  | cons a ws ih =>
    simp only [List.all_cons, Bool.and_eq_true] at h
    cases a with
    | none => simp [live_count_cons, ih h.2]
    | some x => simp at h

theorem live_count_set (ws : List (Option rl_window)) (i : Nat) (v : Option rl_window)
    (hi : i < ws.length) :
    live_count (ws.set i v) + (if live ws i then 1 else 0)
      = live_count ws + (if v.isSome then 1 else 0) := by
  induction ws generalizing i with
  | nil => simp at hi
  | cons a ws ih =>
    cases i with
    | zero =>
      simp only [List.set_cons_zero, live_count_cons]
      cases a <;> simp [live] <;> omega
    | succ i =>
      have hi1 : i < ws.length := by simpa using hi
      have := ih i hi1
      simp only [List.set_cons_succ, live_count_cons]
      have hl : live (a :: ws) (i + 1) = live ws i := by simp [live]
      rw [hl]
      omega

theorem live_count_resize {ws : List (Option rl_window)} {n : Nat}
    (h : (ws.drop n).all Option.isNone = true) : live_count (resize ws n) = live_count ws := by
  unfold resize
  rw [live_count_append, live_count_replicate_none]
  conv_rhs => rw [← List.take_append_drop n ws, live_count_append, live_count_all_none h]

theorem resize_length (ws : List (Option rl_window)) (n : Nat) : (resize ws n).length = n := by
  simp [resize]; omega

theorem getElem?_resize (ws : List (Option rl_window)) (n i : Nat) :
    (resize ws n)[i]? = if i < n then some (ws[i]?.getD none) else none := by
  unfold resize
  by_cases hin : i < n
  · simp only [hin, if_true]
    by_cases hil : i < ws.length
    · rw [List.getElem?_append_left (by simp; omega)]
      simp [List.getElem?_take, hin, hil]
    · rw [List.getElem?_append_right (by simp; omega)]
      simp [List.getElem?_replicate]
      have : ws[i]? = none := by simp; omega
      simp [this]; omega
  · simp only [hin, if_false]
    apply List.getElem?_eq_none
    simp; omega

theorem live_resize (ws : List (Option rl_window)) (n i : Nat) :
    live (resize ws n) i = (decide (i < n) && live ws i) := by
  unfold live
  rw [getElem?_resize]
  by_cases hin : i < n
  · simp only [hin, if_true, decide_True, Bool.true_and]
    match ws[i]? with
    | none => rfl
    | some none => rfl
    | some (some _) => rfl
  · simp [hin]

theorem live_set (ws : List (Option rl_window)) (i j : Nat) (v : Option rl_window) :
    live (ws.set i v) j = if i = j ∧ i < ws.length then v.isSome else live ws j := by
  unfold live
  rw [List.getElem?_set]
  by_cases hij : i = j
  · subst hij
    by_cases hi : i < ws.length
    · simp [hi]; cases v <;> simp
    · simp [hi]
      have : ws[i]? = none := by simp; omega
      simp [this]
  · simp [hij]


theorem ScopedStack_ok {α : Type} (tag : String) (body : World → Except Fault (α × World))
    (w : World) (a : α) (w1 : World)
    (h : body { w with win_proc_calls := w.win_proc_calls ++ [tag] } = .ok (a, w1)) :
    ScopedStack tag body w = .ok (a, { w1 with win_proc_calls := w1.win_proc_calls.dropLast }) := by
  simp [ScopedStack, h]

theorem ScopedStack_error {α : Type} (tag : String) (body : World → Except Fault (α × World))
    (w : World) (f : Fault)
    (h : body { w with win_proc_calls := w.win_proc_calls ++ [tag] } = .error f) :
    ScopedStack tag body w = .error f := by
  simp [ScopedStack, h]

theorem create_nhwindow_method_eq (self : NetHackRL) (t : Int) (h : Nat) (w : World) :
    create_nhwindow_method self t h w =
      if live self.windows_ h then .error .assertion
      else .ok ((h, { self with
          windows_ := (resize self.windows_ (h + 1)).set h (some { type := t }) }),
        w.called "tty_create_nhwindow" ["create_nhwindow"]) := by
  have hr : (resize self.windows_ (h + 1))[h]? = some (self.windows_[h]?.getD none) := by
    rw [getElem?_resize]; simp
  by_cases hl : live self.windows_ h = true
  · obtain ⟨win, hw⟩ := (live_eq_true_iff _ _).1 hl
    rw [if_pos hl]
    unfold create_nhwindow_method
    apply ScopedStack_error
    simp only [hr, hw, Option.getD_some]
  · rw [if_neg hl]
    have hn : self.windows_[h]?.getD none = none := by
      rcases (live_eq_false_iff _ _).1 (by simpa using hl) with h1 | h1 <;> simp [h1]
    simp only [create_nhwindow_method, ScopedStack, hr, hn]
    simp [World.delegate, World.called]

theorem destroy_nhwindow_method_eq (self : NetHackRL) (h : Nat) (w : World) :
    destroy_nhwindow_method self h w =
      if h < self.windows_.length then
        .ok (((), { self with windows_ := self.windows_.set h none }),
          w.delegate "tty_destroy_nhwindow")
      else .error .out_of_range := rfl

theorem run_calls_append (xs ys : List Call) : ∀ (self : NetHackRL) (w : World),
    run_calls self w (xs ++ ys) =
      match run_calls self w xs with
      | .error f => .error f
      | .ok (s, w1) => run_calls s w1 ys := by
  induction xs with
  | nil => intro self w; rfl
  | cons c xs ih =>
    intro self w
    simp only [List.cons_append, run_calls]
    cases hc : c.apply self w with
    | error f => rfl
    | ok r => obtain ⟨s, w1⟩ := r; exact ih s w1

theorem admissible_take (P : List (Option rl_window) → Call → Bool) (cs : List Call) :
    ∀ (n : Nat) (self : NetHackRL) (w : World), admissible P self w cs = true →
      admissible P self w (cs.take n) = true := by
  induction cs with
  | nil => intro n self w _; simp [admissible]
  | cons c cs ih =>
    intro n self w h
    cases n with
    | zero => simp [admissible]
    | succ n =>
      simp only [List.take_succ_cons, admissible, Bool.and_eq_true] at h ⊢
      refine ⟨h.1, ?_⟩
      cases hc : c.apply self w with
      | error f => rfl
      | ok r =>
        obtain ⟨s, w1⟩ := r
        have h2 := h.2
        rw [hc] at h2
        exact ih n s w1 h2

theorem creates_cons (c : Call) (cs : List Call) :
    creates (c :: cs) = (match c with | .create _ _ => 1 | .destroy _ => 0) + creates cs := by
  cases c <;> simp [creates, List.filter_cons, Nat.add_comm]

theorem destroys_cons (c : Call) (cs : List Call) :
    destroys (c :: cs) = (match c with | .create _ _ => 0 | .destroy _ => 1) + destroys cs := by
  cases c <;> simp [destroys, List.filter_cons, Nat.add_comm]

theorem run_calls_count (cs : List Call) : ∀ (self : NetHackRL) (w : World),
    admissible Call.pre_uncut self w cs = true →
    ∃ s w1, run_calls self w cs = .ok (s, w1) ∧
      live_count s.windows_ + destroys cs = live_count self.windows_ + creates cs := by
  induction cs with
  | nil => intro self w _; exact ⟨self, w, rfl, rfl⟩
  | cons c cs ih =>
    intro self w h
    simp only [admissible, Bool.and_eq_true, Call.pre_uncut] at h
    obtain ⟨⟨hpre, habove⟩, hrest⟩ := h
    cases c with
    | create t wid =>
      simp only [Call.pre, Bool.not_eq_true'] at hpre
      simp only [Call.above_clear] at habove
      have happ : (Call.create t wid).apply self w = .ok
          ({ self with windows_ := (resize self.windows_ (wid + 1)).set wid (some { type := t }) },
            w.called "tty_create_nhwindow" ["create_nhwindow"]) := by
        simp [Call.apply, create_nhwindow_method_eq, hpre]
      rw [happ] at hrest
      obtain ⟨s, w1, hrun, hcount⟩ := ih _ _ hrest
      refine ⟨s, w1, by simp [run_calls, happ, hrun], ?_⟩
      have hset := live_count_set (resize self.windows_ (wid + 1)) wid (some { type := t })
        (by rw [resize_length]; omega)
      have hlr : live (resize self.windows_ (wid + 1)) wid = false := by
        rw [live_resize, hpre]; simp
      rw [hlr, live_count_resize habove] at hset
      simp only [creates_cons, destroys_cons] at hcount ⊢
      simp at hset hcount ⊢
      omega
    | destroy wid =>
      simp only [Call.pre] at hpre
      have hlt := live_lt_length hpre
      have happ : (Call.destroy wid).apply self w = .ok
          ({ self with windows_ := self.windows_.set wid none },
            w.delegate "tty_destroy_nhwindow") := by
        simp [Call.apply, destroy_nhwindow_method_eq, hlt]
      rw [happ] at hrest
      obtain ⟨s, w1, hrun, hcount⟩ := ih _ _ hrest
      refine ⟨s, w1, by simp [run_calls, happ, hrun], ?_⟩
      have hset := live_count_set self.windows_ wid none hlt
      rw [hpre] at hset
      simp only [creates_cons, destroys_cons] at hcount ⊢
      simp at hset hcount ⊢
      omega

theorem run_calls_dead (cs : List Call) : ∀ (self : NetHackRL) (w : World) (h : Nat),
    live self.windows_ h = false → (∀ t, Call.create t h ∉ cs) →
    ∀ s w1, run_calls self w cs = .ok (s, w1) → live s.windows_ h = false := by
  induction cs with
  | nil =>
    intro self w h hl _ s w1 hrun
    simp only [run_calls, Except.ok.injEq, Prod.mk.injEq] at hrun
    rw [← hrun.1]; exact hl
  | cons c cs ih =>
    intro self w h hl hno s w1 hrun
    simp only [run_calls] at hrun
    have hno2 : ∀ t, Call.create t h ∉ cs := fun t hm => hno t (List.mem_cons_of_mem _ hm)
    cases c with
    | create t wid =>
      have hne : wid ≠ h := by
        intro e; subst e; exact hno t (List.mem_cons_self _ _)
      simp only [Call.apply, create_nhwindow_method_eq] at hrun
      by_cases hlw : live self.windows_ wid = true
      · simp [hlw] at hrun
      · simp only [hlw, Bool.false_eq_true, if_false] at hrun
        refine ih _ _ h ?_ hno2 s w1 hrun
        simp only [live_set, live_resize, hl, Bool.and_false]
        simp [hne]
    | destroy wid =>
      simp only [Call.apply, destroy_nhwindow_method_eq] at hrun
      by_cases hlt : wid < self.windows_.length
      · simp only [hlt, if_true] at hrun
        refine ih _ _ h ?_ hno2 s w1 hrun
        simp only [live_set, hl]
        simp
      · simp [hlt] at hrun


theorem take_split {α : Type} (cs : List α) (n m : Nat) (c : α) (hc : cs[n]? = some c)
    (hnm : n < m) : cs.take m = cs.take n ++ c :: (cs.take m).drop (n + 1) := by
  obtain ⟨hn, hcn⟩ := List.getElem?_eq_some_iff.1 hc
  have hlen : n < (cs.take m).length := by simp; omega
  have h1 : (cs.take m).take n = cs.take n := by
    rw [List.take_take]; congr 1; omega
  have h2 : (cs.take m)[n] = c := by
    rw [List.getElem_take]; exact hcn
  conv_lhs => rw [← List.take_append_drop n (cs.take m)]
  rw [h1, List.drop_eq_getElem_cons hlen, h2]

/-- C1 (amended): starting from a freshly constructed bridge, whose
constructor has already made the base-window slot at handle 0 live, for every
sequence of create and destroy calls in which each create returns a handle
that has no live shadow slot and lies below no live slot, and each destroy
names a live handle, every call returns, after every call the number of live
shadow slots equals 1 + creates - destroys, and the slot of a destroyed
handle is absent at every later point up to which that handle has not been
created again. -/
theorem C1_live_slot_count (K : HostDecls) (u : Indeterminate) (w : World) (cs : List Call)
    (hadm : admissible Call.pre_uncut (NetHackRL.ctor K u) w cs = true) :
    (∀ n, ∃ s w1, run_calls (NetHackRL.ctor K u) w (cs.take n) = .ok (s, w1) ∧
        (live_count s.windows_ : Int) = 1 + creates (cs.take n) - destroys (cs.take n)) ∧
    (∀ n m h, cs[n]? = some (Call.destroy h) → n < m →
        (∀ t, Call.create t h ∉ (cs.take m).drop (n + 1)) →
        ∃ s w1, run_calls (NetHackRL.ctor K u) w (cs.take m) = .ok (s, w1) ∧
          live s.windows_ h = false) := by
  constructor
  · intro n
    obtain ⟨s, w1, hrun, hcount⟩ := run_calls_count (cs.take n) _ _ (admissible_take _ cs n _ _ hadm)
    refine ⟨s, w1, hrun, ?_⟩
    have h1 : live_count (NetHackRL.ctor K u).windows_ = 1 := rfl
    rw [h1] at hcount
    omega
  · intro n m h hc hnm hno
    obtain ⟨s, w1, hrun, -⟩ := run_calls_count (cs.take m) _ _ (admissible_take _ cs m _ _ hadm)
    refine ⟨s, w1, hrun, ?_⟩
    rw [take_split cs n m _ hc hnm, run_calls_append] at hrun
    cases h0 : run_calls (NetHackRL.ctor K u) w (cs.take n) with
    | error f => rw [h0] at hrun; simp at hrun
    | ok r =>
      obtain ⟨s0, w0⟩ := r
      rw [h0] at hrun
      simp only [run_calls, Call.apply, destroy_nhwindow_method_eq] at hrun
      by_cases hlt : h < s0.windows_.length
      · simp only [hlt, if_true] at hrun
        refine run_calls_dead _ _ _ h ?_ hno s w1 hrun
        simp [live_set, hlt]
      · simp [hlt] at hrun

/-- C1 (witness): the amended statement at the calls create 1, create 2,
destroy 2, create 2 on the bridge of a NetHack 3.6 host. -/
theorem C1_witness :
    admissible Call.pre_uncut (NetHackRL.ctor nethack36 zeroed) World.start
        [Call.create 1 1, Call.create 2 2, Call.destroy 2, Call.create 3 2] = true ∧
    ((∀ n, ∃ s w1, run_calls (NetHackRL.ctor nethack36 zeroed) World.start
          (([Call.create 1 1, Call.create 2 2, Call.destroy 2, Call.create 3 2]).take n)
            = .ok (s, w1) ∧
        (live_count s.windows_ : Int)
          = 1 + creates (([Call.create 1 1, Call.create 2 2, Call.destroy 2, Call.create 3 2]).take n)
            - destroys (([Call.create 1 1, Call.create 2 2, Call.destroy 2, Call.create 3 2]).take n)) ∧
    (∀ n m h, ([Call.create 1 1, Call.create 2 2, Call.destroy 2, Call.create 3 2])[n]?
          = some (Call.destroy h) → n < m →
        (∀ t, Call.create t h ∉
          (([Call.create 1 1, Call.create 2 2, Call.destroy 2, Call.create 3 2]).take m).drop (n + 1)) →
        ∃ s w1, run_calls (NetHackRL.ctor nethack36 zeroed) World.start
            (([Call.create 1 1, Call.create 2 2, Call.destroy 2, Call.create 3 2]).take m)
              = .ok (s, w1) ∧
          live s.windows_ h = false)) :=
  ⟨by decide, C1_live_slot_count nethack36 zeroed World.start _ (by decide)⟩

/-- C1 (counterexample): the count is not creates - destroys (after one
create two slots are live, the base window and the new one), and under the
stated precondition alone it is not 1 + creates - destroys either (create 1,
create 2, destroy 1, create 1 leaves two live slots, not three). -/
theorem C1_counterexample :
    (¬ ∀ cs : List Call,
        admissible Call.pre (NetHackRL.ctor nethack36 zeroed) World.start cs = true →
        ∀ s w1, run_calls (NetHackRL.ctor nethack36 zeroed) World.start cs = .ok (s, w1) →
          (live_count s.windows_ : Int) = creates cs - destroys cs) ∧
    (¬ ∀ cs : List Call,
        admissible Call.pre (NetHackRL.ctor nethack36 zeroed) World.start cs = true →
        ∀ s w1, run_calls (NetHackRL.ctor nethack36 zeroed) World.start cs = .ok (s, w1) →
          (live_count s.windows_ : Int) = 1 + creates cs - destroys cs) := by
  constructor
  · intro h
    have := h [Call.create 1 1] (by decide) _ _ rfl
    revert this
    decide
  · intro h
    have := h [Call.create 1 1, Call.create 4 2, Call.destroy 1, Call.create 4 1] (by decide) _ _ rfl
    revert this
    decide

/-- C2 (evaluation at the failing input): from the state reached by creating
handles 1 and 2 and destroying 1, in which handle 1 has no live slot and
handle 2 is a live menu window, a create that returns handle 1 makes slot 1
live but resizes the vector to two elements, so the live slot of handle 2 is
gone afterwards. -/
theorem C2_create_cuts_higher_slot :
    ∃ s0 w0 s1 w1,
      run_calls (NetHackRL.ctor nethack36 zeroed) World.start
        [Call.create 1 1, Call.create 4 2, Call.destroy 1] = .ok (s0, w0) ∧
      live s0.windows_ 1 = false ∧
      s0.windows_[2]? = some (some { type := 4 }) ∧
      create_nhwindow_method s0 4 1 w0 = .ok ((1, s1), w1) ∧
      s1.windows_ = [some { type := 6 }, some { type := 4 }] ∧
      live s1.windows_ 2 = false :=
  ⟨_, _, _, _, rfl, by decide, by decide, rfl, by decide, by decide⟩

/-- What create_nhwindow_method does when the handle has no live slot: it
returns the handle, slot wid is live with the given type and holds no text
line and no menu item, the vector has wid + 1 slots, and every slot below wid
is as before. Slots above wid are cut off. -/
theorem create_nhwindow_method_effect (self : NetHackRL) (t : Int) (wid : Nat) (w : World)
    (hl : live self.windows_ wid = false) :
    ∃ s w1, create_nhwindow_method self t wid w = .ok ((wid, s), w1) ∧
      s.windows_[wid]? = some (some { type := t, menu_items := [], strings := [] }) ∧
      s.windows_.length = wid + 1 ∧
      (∀ k win, k < wid → self.windows_[k]? = some (some win) →
        s.windows_[k]? = some (some win)) ∧
      (∀ k, wid < k → live s.windows_ k = false) := by
  refine ⟨_, _, by rw [create_nhwindow_method_eq, hl]; rfl, ?_, ?_, ?_, ?_⟩
  · simp [List.getElem?_set, resize_length]
  · simp [resize_length]
  · intro k win hk hw
    simp only [List.getElem?_set, getElem?_resize]
    have h1 : wid ≠ k := by omega
    have h2 : k < wid + 1 := by omega
    simp [h1, h2, hw]
  · intro k hk
    rw [live_set, live_resize]
    have h1 : wid ≠ k := by omega
    have h2 : ¬ k < wid + 1 := by omega
    simp [h1, h2]

theorem to_size_t_natCast (n : Nat) (h : n < 18446744073709551616) :
    to_size_t (n : Int) = n := by
  unfold to_size_t
  have : ((n : Int) % 18446744073709551616) = (n : Int) := Int.emod_eq_of_lt (by omega) (by omega)
  rw [this]; simp

theorem tmod_natCast (a b : Nat) : Int.tmod (a : Int) (b : Int) = ((a % b : Nat) : Int) := by
  rw [Int.tmod_eq_emod (by omega) (by omega)]
  simp

theorem cell_lt (W H i j : Nat) (hi : i < W) (hj : j < H) : j * W + i < W * H := by
  have h1 : (j + 1) * W ≤ H * W := Nat.mul_le_mul_right W hj
  have h2 : (j + 1) * W = j * W + W := by ring
  have h3 : H * W = W * H := Nat.mul_comm H W
  omega

theorem grid_offset_of_nonneg (K : HostDecls) (x y : Int) (hW : 1 < K.COLNO) (hH : 0 < K.ROWNO)
    (hsz : K.cells < 18446744073709551616) (hx : 1 ≤ x) (hy : 0 ≤ y) :
    grid_offset K x y
      = (y.toNat % K.ROWNO) * (K.COLNO - 1) + ((x - 1).toNat % (K.COLNO - 1)) ∧
    grid_offset K x y < K.cells := by
  obtain ⟨a, ha⟩ : ∃ a : Nat, x - 1 = (a : Int) := ⟨(x - 1).toNat, by omega⟩
  obtain ⟨b, hb⟩ : ∃ b : Nat, y = (b : Int) := ⟨y.toNat, by omega⟩
  obtain ⟨W, hWe⟩ : ∃ W : Nat, K.COLNO = W + 1 := ⟨K.COLNO - 1, by omega⟩
  have hWpos : 0 < W := by omega
  have hcells : K.cells = W * K.ROWNO := by simp [HostDecls.cells, hWe]
  have hcW : ((K.COLNO : Int) - 1) = (W : Int) := by rw [hWe]; push_cast; ring
  rw [hcells] at hsz
  have hi : a % W < W := Nat.mod_lt _ hWpos
  have hj : b % K.ROWNO < K.ROWNO := Nat.mod_lt _ hH
  have hlt := cell_lt W K.ROWNO _ _ hi hj
  have hWle : W ≤ W * K.ROWNO := Nat.le_mul_of_pos_right W hH
  have hHle : K.ROWNO ≤ W * K.ROWNO := Nat.le_mul_of_pos_left K.ROWNO hWpos
  have e : grid_offset K x y = (b % K.ROWNO) * W + a % W := by
    unfold grid_offset
    simp only [ha, hb, hcW, tmod_natCast]
    rw [to_size_t_natCast (a % W) (by omega), to_size_t_natCast (b % K.ROWNO) (by omega),
      to_size_t_natCast W (by omega)]
    exact Nat.mod_eq_of_lt (by omega)
  constructor
  · rw [e, ha, hb]; simp [hWe]
  · rw [e, hcells]; exact hlt

theorem grid_offset_in_range (K : HostDecls) (x y : Int) (hW : 1 < K.COLNO) (hH : 0 < K.ROWNO)
    (hsz : K.cells < 18446744073709551616) (hx : 1 ≤ x) (hxW : x ≤ (K.COLNO : Int) - 1)
    (hy : 0 ≤ y) (hyH : y < K.ROWNO) :
    grid_offset K x y = y.toNat * (K.COLNO - 1) + (x - 1).toNat := by
  rw [(grid_offset_of_nonneg K x y hW hH hsz hx hy).1]
  rw [Nat.mod_eq_of_lt (by omega), Nat.mod_eq_of_lt (by omega)]

/-- C5: for all in-range coordinates (1 <= x <= COLNO - 1, 0 <= y < ROWNO) the
coordinate transform of store_glyph and store_mapped_glyph is injective: two
in-range pairs with the same flat offset are the same pair. -/
theorem C5_offset_injective (K : HostDecls) (x1 y1 x2 y2 : Int) (hW : 1 < K.COLNO)
    (hH : 0 < K.ROWNO) (hsz : K.cells < 18446744073709551616)
    (hx1 : 1 ≤ x1 ∧ x1 ≤ (K.COLNO : Int) - 1) (hy1 : 0 ≤ y1 ∧ y1 < K.ROWNO)
    (hx2 : 1 ≤ x2 ∧ x2 ≤ (K.COLNO : Int) - 1) (hy2 : 0 ≤ y2 ∧ y2 < K.ROWNO)
    (heq : grid_offset K x1 y1 = grid_offset K x2 y2) : x1 = x2 ∧ y1 = y2 := by
  rw [grid_offset_in_range K x1 y1 hW hH hsz hx1.1 hx1.2 hy1.1 hy1.2,
    grid_offset_in_range K x2 y2 hW hH hsz hx2.1 hx2.2 hy2.1 hy2.2] at heq
  have hWpos : 0 < K.COLNO - 1 := by omega
  have ha1 : (x1 - 1).toNat < K.COLNO - 1 := by omega
  have ha2 : (x2 - 1).toNat < K.COLNO - 1 := by omega
  have hm := congrArg (· % (K.COLNO - 1)) heq
  have hd := congrArg (· / (K.COLNO - 1)) heq
  simp only [Nat.mul_add_mod_of_lt ha1, Nat.mul_add_mod_of_lt ha2] at hm
  simp only [Nat.mul_add_div hWpos, Nat.mul_comm _ (K.COLNO - 1),
    Nat.div_eq_of_lt ha1, Nat.div_eq_of_lt ha2, Nat.add_zero] at hd
  omega

/-- C5 (witness): the statement at the pair (3, 4) taken twice on the NetHack
3.6 grid. -/
theorem C5_witness :
    grid_offset nethack36 3 4 = grid_offset nethack36 3 4 ∧ ((3 : Int) = 3 ∧ (4 : Int) = 4) :=
  ⟨rfl, C5_offset_injective nethack36 3 4 3 4 (by decide) (by decide) (by decide)
    (by decide) (by decide) (by decide) (by decide) rfl⟩

/-- C4 (evaluation at failing inputs): on the 79 by 21 grid the offset computed
for (x = 0, y = 0) is 2^64 - 1, not the 78 of the non-negative mod, it lies
outside the arrays, and both stores fault there; for (x = 0, y = 1) the
offset is 78, a cell of row 0, not the 157 of the non-negative mod. -/
theorem C4_offset_below_range :
    grid_offset nethack36 0 0 = 18446744073709551615 ∧
    ¬ grid_offset nethack36 0 0 < nethack36.cells ∧
    (0 % 21 : Int) * 79 + ((0 - 1) % 79) = 78 ∧
    store_glyph nethack36 (NetHackRL.ctor nethack36 zeroed) 0 0 5 = .error .out_of_range ∧
    store_mapped_glyph nethack36 (NetHackRL.ctor nethack36 zeroed) 64 7 0 0 0
      = .error .out_of_range ∧
    grid_offset nethack36 0 1 = 78 ∧
    (1 % 21 : Int) * 79 + ((0 - 1) % 79) = 157 := by
  refine ⟨by decide, by decide, by decide, rfl, rfl, by decide, by decide⟩

set_option maxRecDepth 20000


theorem getElem?_replicate_lt {α : Type} (n i : Nat) (a : α) (h : i < n) :
    (List.replicate n a)[i]? = some a := by
  simp [List.getElem?_replicate, h]

/-- C3 (amended): for every bridge state and every live window, clear on that
window returns; when the handle of the window equals the host global WIN_MAP,
afterwards every cell of the grid buffer holds the blank sentinel in all four
arrays (glyph 0, char 32, color 0, special 0); when it does not, the four
arrays are as before, whatever the type of the window. -/
theorem C3_clear_resets_grid (K : HostDecls) (host : Host) (self : NetHackRL) (wid : Nat)
    (w : World) (hl : live self.windows_ wid = true) :
    ∃ s w1, clear_nhwindow_method K host self wid w = .ok (((), s), w1) ∧
      ((wid : Int) = host.WIN_MAP → ∀ off, off < K.cells →
        s.glyphs_[off]? = some 0 ∧ s.chars_[off]? = some 32 ∧
        s.colors_[off]? = some 0 ∧ s.specials_[off]? = some 0) ∧
      ((wid : Int) ≠ host.WIN_MAP →
        s.glyphs_ = self.glyphs_ ∧ s.chars_ = self.chars_ ∧
        s.colors_ = self.colors_ ∧ s.specials_ = self.specials_) := by
  obtain ⟨win, hw⟩ := (live_eq_true_iff _ _).1 hl
  by_cases hm : (wid : Int) = host.WIN_MAP
  · have e : clear_nhwindow_method K host self wid w = .ok (((), { self with
          windows_ := self.windows_.set wid (some { win with menu_items := [], strings := [] })
          glyphs_ := List.replicate K.cells 0
          chars_ := List.replicate K.cells 32
          colors_ := List.replicate K.cells 0
          specials_ := List.replicate K.cells 0 }), w.delegate "tty_clear_nhwindow") := by
      simp only [clear_nhwindow_method, hw, hm, if_true]
    refine ⟨_, _, e, ?_, ?_⟩
    · intro _ off hoff
      simp [getElem?_replicate_lt _ _ _ hoff]
    · intro hne; exact absurd hm hne
  · have e : clear_nhwindow_method K host self wid w = .ok (((), { self with
          windows_ := self.windows_.set wid (some { win with menu_items := [], strings := [] }) }),
          w.delegate "tty_clear_nhwindow") := by
      simp only [clear_nhwindow_method, hw, hm, if_false]
    refine ⟨_, _, e, ?_, ?_⟩
    · intro he; exact absurd he hm
    · intro _; exact ⟨rfl, rfl, rfl, rfl⟩

/-- C3 (witness): the host makes a map-type window with handle 1, records it in
WIN_MAP and prints glyph 5 at (x = 1, y = 0), which puts 5 into cell 0; clear
on window 1 then blanks every cell. -/
theorem C3_witness :
    run nethack36 World.start one_map_window
      = .ok { instance_ := some one_map_object, win_proc_calls := [],
              trace := [Event.tty "tty_init_nhwindows" ["init_nhwindows"],
                Event.tty "tty_create_nhwindow" ["create_nhwindow"],
                Event.tty "tty_print_glyph" []] } ∧
    one_map_object.glyphs_[0]? = some 5 ∧
    live one_map_object.windows_ 1 = true ∧
    ∃ s w1, clear_nhwindow_method nethack36 (host_with_map 1) one_map_object 1 World.start
        = .ok (((), s), w1) ∧
      (((1 : Nat) : Int) = (host_with_map 1).WIN_MAP → ∀ off, off < nethack36.cells →
        s.glyphs_[off]? = some 0 ∧ s.chars_[off]? = some 32 ∧
        s.colors_[off]? = some 0 ∧ s.specials_[off]? = some 0) ∧
      (((1 : Nat) : Int) ≠ (host_with_map 1).WIN_MAP →
        s.glyphs_ = one_map_object.glyphs_ ∧ s.chars_ = one_map_object.chars_ ∧
        s.colors_ = one_map_object.colors_ ∧ s.specials_ = one_map_object.specials_) :=
  ⟨rfl, by decide, by decide,
    C3_clear_resets_grid nethack36 (host_with_map 1) one_map_object 1 World.start (by decide)⟩

/-- C3 (counterexample): with two live map-type windows, handles 1 and 2, and
WIN_MAP = 2, after glyph 5 was printed at (x = 1, y = 0) a clear on the live
map-type window 1 returns and cell 0 of the glyph array still holds 5. -/
theorem C3_counterexample :
    ∃ w0 s0 s1 w1,
      run nethack36 World.start two_map_windows = .ok w0 ∧
      w0.instance_ = some s0 ∧
      s0.windows_[1]? = some (some { type := nethack36.NHW_MAP }) ∧
      clear_nhwindow_method nethack36 (host_with_map 2) s0 1 w0 = .ok (((), s1), w1) ∧
      s1.glyphs_[0]? = some 5 :=
  ⟨_, _, _, _, rfl, rfl, by decide, rfl, by decide⟩


/-- C6: in the message that observation_message builds, the observation,
scalar-stats (blstats), you and internal blocks are present exactly when the
in_moveloop flag of the host is set at encode time; when it is not set the
message consists of the window list, the phase flags and the two seeds and
nothing else; in both schemas the window list, the phase flags and the seeds
are present and terminated is false. -/
theorem C6_schema_by_phase (K : HostDecls) (host : Host) (win_proc_calls : List String)
    (self : NetHackRL) :
    ((observation_message K host win_proc_calls self).observation.isSome = host.in_moveloop ∧
     (observation_message K host win_proc_calls self).blstats.isSome = host.in_moveloop ∧
     (observation_message K host win_proc_calls self).you.isSome = host.in_moveloop ∧
     (observation_message K host win_proc_calls self).internal.isSome = host.in_moveloop) ∧
    (host.in_moveloop = false →
      observation_message K host win_proc_calls self =
        { observation := none, blstats := none, you := none,
          windows := some (encode_windows self.windows_), internal := none,
          program_state := some
            { gameover := host.gameover, panicking := host.panicking, exiting := host.exiting,
              in_moveloop := false, in_impossible := host.in_impossible },
          seeds := some { core := host.nle_seeds_0, disp := host.nle_seeds_1 },
          terminated := false }) ∧
    ((observation_message K host win_proc_calls self).windows
        = some (encode_windows self.windows_) ∧
     (observation_message K host win_proc_calls self).program_state = some
        { gameover := host.gameover, panicking := host.panicking, exiting := host.exiting,
          in_moveloop := host.in_moveloop, in_impossible := host.in_impossible } ∧
     (observation_message K host win_proc_calls self).seeds
        = some { core := host.nle_seeds_0, disp := host.nle_seeds_1 } ∧
     (observation_message K host win_proc_calls self).terminated = false) := by
  cases h : host.in_moveloop <;>
    simp [observation_message, fbs.CreateMessage, h]

theorem observation_message_full (K : HostDecls) (host : Host) (win_proc_calls : List String)
    (self : NetHackRL) (h : host.in_moveloop = true) :
    observation_message K host win_proc_calls self =
      { observation := some (encode_observation K self)
        blstats := some (encode_blstats host)
        you := some (encode_you host)
        windows := some (encode_windows self.windows_)
        internal := some (encode_internal host win_proc_calls)
        program_state := some
          { gameover := host.gameover, panicking := host.panicking, exiting := host.exiting,
            in_moveloop := host.in_moveloop, in_impossible := host.in_impossible }
        seeds := some { core := host.nle_seeds_0, disp := host.nle_seeds_1 }
        terminated := false } := by
  simp [observation_message, fbs.CreateMessage, h]

theorem to_int16_of_range (v : Int) (h1 : -32768 ≤ v) (h2 : v ≤ 32767) : to_int16 v = v := by
  unfold to_int16; omega

/-- C9: in the full schema the hit points of the scalar-stats block, taken
from u.mh when the player is polymorphed and from u.uhp otherwise, are 0 when
the host value is negative, the host value when it is in 0..9999 and 9999
when it is above. -/
theorem C9_hitpoints_clamped (K : HostDecls) (host : Host) (win_proc_calls : List String)
    (self : NetHackRL) (h : host.in_moveloop = true) :
    ∃ b, (observation_message K host win_proc_calls self).blstats = some b ∧
      b.hitpoints =
        if (if host.Upolyd then host.u_mh else host.u_uhp) < 0 then 0
        else if (if host.Upolyd then host.u_mh else host.u_uhp) ≤ 9999 then
          (if host.Upolyd then host.u_mh else host.u_uhp)
        else 9999 := by
  refine ⟨encode_blstats host, by rw [observation_message_full K host win_proc_calls self h], ?_⟩
  simp only [encode_blstats, encode_hitpoints, min]
  generalize (if host.Upolyd then host.u_mh else host.u_uhp) = hp
  by_cases h0 : hp < 0
  · simp only [h0, if_true]
    rw [to_int16_of_range] <;> simp
  · simp only [h0, if_false]
    by_cases h1 : hp ≤ 9999
    · have : hp < 9999 ∨ hp = 9999 := by omega
      rcases this with h2 | h2
      · simp only [h2, h1, if_true]; exact to_int16_of_range _ (by omega) (by omega)
      · subst h2; simp [to_int16]
    · have : ¬ hp < 9999 := by omega
      simp only [this, h1, if_false]; simp [to_int16]

/-- C9 (witness): a host value of 12000 is reported as 9999. -/
theorem C9_witness :
    host_hp_12000.in_moveloop = true ∧
    ∃ b, (observation_message nethack36 host_hp_12000 ["nhgetch"]
        (NetHackRL.ctor nethack36 zeroed)).blstats = some b ∧ b.hitpoints = 9999 :=
  ⟨rfl, C9_hitpoints_clamped nethack36 host_hp_12000 ["nhgetch"]
    (NetHackRL.ctor nethack36 zeroed) rfl⟩

/-- C10: in the full schema each named flag of the condition block is true
exactly when (condition_bits_ & flag_bit) == flag_bit, and two encodings from
any hosts, call stacks and bridge states that agree on condition_bits_ carry
the same condition block. -/
theorem C10_condition_flags (K : HostDecls) (host : Host) (win_proc_calls : List String)
    (self : NetHackRL) (h : host.in_moveloop = true) :
    ∃ o, (observation_message K host win_proc_calls self).observation = some o ∧
      (o.status.condition.stoned = true ↔
        Int.land self.condition_bits_ K.BL_MASK_STONE = K.BL_MASK_STONE) ∧
      (o.status.condition.slimed = true ↔
        Int.land self.condition_bits_ K.BL_MASK_SLIME = K.BL_MASK_SLIME) ∧
      (o.status.condition.strangled = true ↔
        Int.land self.condition_bits_ K.BL_MASK_STRNGL = K.BL_MASK_STRNGL) ∧
      (o.status.condition.food_poisoning = true ↔
        Int.land self.condition_bits_ K.BL_MASK_FOODPOIS = K.BL_MASK_FOODPOIS) ∧
      (o.status.condition.terminally_ill = true ↔
        Int.land self.condition_bits_ K.BL_MASK_TERMILL = K.BL_MASK_TERMILL) ∧
      (o.status.condition.blind = true ↔
        Int.land self.condition_bits_ K.BL_MASK_BLIND = K.BL_MASK_BLIND) ∧
      (o.status.condition.deaf = true ↔
        Int.land self.condition_bits_ K.BL_MASK_DEAF = K.BL_MASK_DEAF) ∧
      (o.status.condition.stunned = true ↔
        Int.land self.condition_bits_ K.BL_MASK_STUN = K.BL_MASK_STUN) ∧
      (o.status.condition.confused = true ↔
        Int.land self.condition_bits_ K.BL_MASK_CONF = K.BL_MASK_CONF) ∧
      (o.status.condition.hallucinating = true ↔
        Int.land self.condition_bits_ K.BL_MASK_HALLU = K.BL_MASK_HALLU) ∧
      (o.status.condition.levitating = true ↔
        Int.land self.condition_bits_ K.BL_MASK_LEV = K.BL_MASK_LEV) ∧
      (o.status.condition.flying = true ↔
        Int.land self.condition_bits_ K.BL_MASK_FLY = K.BL_MASK_FLY) ∧
      (o.status.condition.riding = true ↔
        Int.land self.condition_bits_ K.BL_MASK_RIDE = K.BL_MASK_RIDE) ∧
      (∀ (host2 : Host) (calls2 : List String) (self2 : NetHackRL),
        host2.in_moveloop = true → self2.condition_bits_ = self.condition_bits_ →
        ∃ o2, (observation_message K host2 calls2 self2).observation = some o2 ∧
          o2.status.condition = o.status.condition) := by
  refine ⟨encode_observation K self,
    by rw [observation_message_full K host win_proc_calls self h], ?_⟩
  simp only [encode_observation, encode_status, encode_condition, decide_eq_true_eq, true_and,
    iff_self]
  intro host2 calls2 self2 h2 hc
  refine ⟨encode_observation K self2, by rw [observation_message_full K host2 calls2 self2 h2], ?_⟩
  simp only [encode_observation, encode_status, encode_condition, hc]

/-- C10 (witness): with the mask 0x180 and the NetHack 3.6 bits, stunned and
confused are set and blind is not. -/
theorem C10_witness :
    host_hp_12000.in_moveloop = true ∧
    ∃ o, (observation_message nethack36 host_hp_12000 []
        { NetHackRL.ctor nethack36 zeroed with condition_bits_ := 0x180 }).observation = some o ∧
      o.status.condition.stunned = true ∧ o.status.condition.confused = true ∧
      o.status.condition.blind = false := by
  obtain ⟨o, ho, hc⟩ := C10_condition_flags nethack36 host_hp_12000 []
    { NetHackRL.ctor nethack36 zeroed with condition_bits_ := 0x180 } rfl
  refine ⟨rfl, o, ho, ?_, ?_, ?_⟩
  · exact hc.2.2.2.2.2.2.2.1.2 (by decide)
  · exact hc.2.2.2.2.2.2.2.2.1.2 (by decide)
  · cases hb : o.status.condition.blind with
    | false => rfl
    | true => exact absurd (hc.2.2.2.2.2.1.1 hb) (by decide)

theorem sent_append (t1 t2 : List Event) : sent (t1 ++ t2) = sent t1 ++ sent t2 := by
  simp [sent, List.filterMap_append]

theorem sent_tty (c : String) (st : List String) : sent [Event.tty c st] = [] := rfl

theorem sent_send (m : fbs.Message) : sent [Event.send m] = [m] := rfl

theorem sent_delegate (w : World) (c : String) : sent (w.delegate c).trace = sent w.trace := by
  simp [World.delegate, sent_append, sent_tty]

theorem sent_called (w : World) (c : String) (fr : List String) :
    sent (w.called c fr).trace = sent w.trace := by
  simp [World.called, sent_append, sent_tty]

theorem ScopedStack_inv {α : Type} {tag : String} {body : World → Except Fault (α × World)}
    {w : World} {a : α} {w1 : World} (h : ScopedStack tag body w = .ok (a, w1)) :
    ∃ w2, body { w with win_proc_calls := w.win_proc_calls ++ [tag] } = .ok (a, w2) ∧
      w1 = { w2 with win_proc_calls := w2.win_proc_calls.dropLast } := by
  unfold ScopedStack at h
  split at h
  · simp at h
  · next a2 w2 hb =>
    simp only [Except.ok.injEq, Prod.mk.injEq] at h
    exact ⟨w2, by rw [hb, h.1], h.2.symm⟩

theorem quiet_ScopedStack {α : Type} (tag : String) (body : World → Except Fault (α × World))
    (hb : Quiet body) : Quiet (ScopedStack tag body) := by
  intro w a w1 h
  obtain ⟨w2, h2, rfl⟩ := ScopedStack_inv h
  obtain ⟨e1, e2, e3⟩ := hb _ _ _ h2
  refine ⟨e1, e2, ?_⟩
  simp [e3]

theorem quiet_delegate {α : Type} (a : α) (c : String) :
    Quiet (fun w => (Except.ok (a, w.delegate c) : Except Fault (α × World))) := by
  intro w a1 w1 h
  simp only [Except.ok.injEq, Prod.mk.injEq] at h
  rw [← h.2]
  exact ⟨sent_delegate w c, rfl, rfl⟩

theorem quiet_passthrough (tag c : String) : Quiet (passthrough tag c) :=
  quiet_ScopedStack tag _ (quiet_delegate () c)

theorem quiet_through_instance {α : Type}
    (m : NetHackRL → World → Except Fault ((α × NetHackRL) × World)) (hm : QuietMethod m) :
    Quiet (through_instance m) := by
  intro w a w1 h
  unfold through_instance at h
  split at h
  · simp at h
  · next self hi =>
    split at h
    · simp at h
    · next a2 s2 w2 hmm =>
      simp only [Except.ok.injEq, Prod.mk.injEq] at h
      obtain ⟨e1, e2, e3⟩ := hm _ _ _ _ _ hmm
      rw [← h.2]
      exact ⟨e1, by simp [hi], e3⟩

theorem quietMethod_on_object (m : NetHackRL → Except Fault NetHackRL) :
    QuietMethod (on_object m) := by
  intro self w a s w1 h
  unfold on_object at h
  split at h
  · simp at h
  · simp only [Except.ok.injEq, Prod.mk.injEq] at h
    rw [← h.2]
    exact ⟨rfl, rfl, rfl⟩

theorem quietMethod_create (type : Int) (wid : Nat) :
    QuietMethod (fun self => create_nhwindow_method self type wid) := by
  intro self w a s w1 h
  simp only [create_nhwindow_method_eq] at h
  split at h
  · simp at h
  · simp only [Except.ok.injEq, Prod.mk.injEq] at h
    rw [← h.2]
    exact ⟨sent_called w _ _, rfl, rfl⟩

theorem quietMethod_clear (K : HostDecls) (host : Host) (wid : Nat) :
    QuietMethod (fun self => clear_nhwindow_method K host self wid) := by
  intro self w a s w1 h
  simp only [clear_nhwindow_method] at h
  cases hw : self.windows_[wid]? with
  | none => rw [hw] at h; simp at h
  | some o =>
    cases o with
    | none => rw [hw] at h; simp at h
    | some win =>
      rw [hw] at h
      simp only [Except.ok.injEq, Prod.mk.injEq] at h
      rw [← h.2]
      exact ⟨sent_delegate w _, rfl, rfl⟩


theorem quietMethod_display (wid : Nat) (block : Bool) :
    QuietMethod (fun self => display_nhwindow_method self wid block) := by
  intro self w a s w1 h
  simp only [display_nhwindow_method, Except.ok.injEq, Prod.mk.injEq] at h
  rw [← h.2]
  exact ⟨sent_delegate w _, rfl, rfl⟩

theorem quietMethod_destroy (wid : Nat) :
    QuietMethod (fun self => destroy_nhwindow_method self wid) := by
  intro self w a s w1 h
  simp only [destroy_nhwindow_method] at h
  by_cases hlt : wid < self.windows_.length
  · simp only [hlt, if_true, Except.ok.injEq, Prod.mk.injEq] at h
    rw [← h.2]
    exact ⟨sent_delegate w _, rfl, rfl⟩
  · simp [hlt] at h


theorem quietMethod_start_menu (wid : Nat) :
    QuietMethod (fun self => start_menu_method self wid) := by
  intro self w a s w1 h
  simp only [start_menu_method] at h
  cases hw : self.windows_[wid]? with
  | none => rw [hw] at h; simp at h
  | some o =>
    cases o with
    | none => rw [hw] at h; simp at h
    | some win =>
      rw [hw] at h
      simp only [Except.ok.injEq, Prod.mk.injEq] at h
      rw [← h.2]
      exact ⟨sent_delegate w _, rfl, rfl⟩


theorem quietMethod_add_menu (wid : Nat) (glyph : Int) (identifier : Nat) (ch gch attr : Int)
    (str : String) (presel : Bool) :
    QuietMethod (fun self => add_menu_method self wid glyph identifier ch gch attr str presel) := by
  intro self w a s w1 h
  simp only [add_menu_method] at h
  cases hw : self.windows_[wid]? with
  | none => rw [hw] at h; simp at h
  | some o =>
    cases o with
    | none => rw [hw] at h; simp at h
    | some win =>
      rw [hw] at h
      simp only [Except.ok.injEq, Prod.mk.injEq] at h
      rw [← h.2]
      exact ⟨sent_delegate w _, rfl, rfl⟩


theorem quiet_rl_player_selection : Quiet rl_player_selection := by
  apply quiet_ScopedStack
  intro w a w1 h
  obtain ⟨e1, e2, e3⟩ :=
    quiet_through_instance _ (quietMethod_on_object player_selection_method) _ _ _ h
  exact ⟨by rw [e1, sent_delegate], e2, e3⟩

theorem quiet_rl_putstr (wid : Nat) (attr : Int) (text : String) :
    Quiet (rl_putstr wid attr text) := by
  apply quiet_ScopedStack
  intro w a w1 h
  cases h1 : through_instance (on_object fun self => putstr_method self wid attr text) w with
  | error e => simp [h1] at h
  | ok r1 =>
    obtain ⟨a1, w2⟩ := r1
    simp only [h1, Except.ok.injEq, Prod.mk.injEq] at h
    obtain ⟨e1, e2, e3⟩ := quiet_through_instance _ (quietMethod_on_object _) _ _ _ h1
    rw [← h.2]
    exact ⟨by rw [sent_delegate, e1], e2, e3⟩

theorem quiet_rl_status_update (K : HostDecls) (decode_mixed : String → String) (fldidx : Int)
    (ptr : genericptr_t) : Quiet (rl_status_update K decode_mixed fldidx ptr) := by
  apply quiet_ScopedStack
  intro w a w1 h
  cases h1 : through_instance
      (on_object fun self => status_update_method K decode_mixed self fldidx ptr) w with
  | error e => simp [h1] at h
  | ok r1 =>
    obtain ⟨a1, w2⟩ := r1
    simp only [h1, Except.ok.injEq, Prod.mk.injEq] at h
    obtain ⟨e1, e2, e3⟩ := quiet_through_instance _ (quietMethod_on_object _) _ _ _ h1
    rw [← h.2]
    cases K.STATUS_HILITES
    · exact ⟨e1, e2, e3⟩
    · exact ⟨by simp only [if_true]; rw [sent_delegate, e1], e2, e3⟩

theorem quiet_rl_print_glyph (K : HostDecls) (host : Host) (wid : Nat)
    (x y glyph ch color special : Int) :
    Quiet (rl_print_glyph K host wid x y glyph ch color special) := by
  intro w a w1 h
  unfold rl_print_glyph at h
  by_cases hm : (wid : Int) = host.WIN_MAP
  · simp only [hm, if_true] at h
    cases h1 : through_instance (on_object fun self => store_glyph K self x y glyph) w with
    | error e => rw [h1] at h; simp at h
    | ok r1 =>
      obtain ⟨a1, w2⟩ := r1
      rw [h1] at h
      simp only at h
      cases h2 : through_instance
          (on_object fun self => store_mapped_glyph K self ch color special x y) w2 with
      | error e => rw [h2] at h; simp at h
      | ok r2 =>
        obtain ⟨a2, w3⟩ := r2
        rw [h2] at h
        simp only [Except.ok.injEq, Prod.mk.injEq] at h
        obtain ⟨e1, e2, e3⟩ := quiet_through_instance _ (quietMethod_on_object _) _ _ _ h1
        obtain ⟨f1, f2, f3⟩ := quiet_through_instance _ (quietMethod_on_object _) _ _ _ h2
        rw [← h.2]
        exact ⟨by rw [sent_delegate, f1, e1], by simp [World.delegate, f2, e2],
          by simp [World.delegate, f3, e3]⟩
  · simp only [hm, if_false, Except.ok.injEq, Prod.mk.injEq] at h
    rw [← h.2]
    exact ⟨sent_delegate w _, rfl, rfl⟩

theorem quiet_of_ok {α : Type} (a : α) (g : World → World)
    (hg : ∀ w, sent (g w).trace = sent w.trace ∧ (g w).instance_ = w.instance_ ∧
      (g w).win_proc_calls = w.win_proc_calls) :
    Quiet (fun w => (Except.ok (a, g w) : Except Fault (α × World))) := by
  intro w a1 w1 h
  simp only [Except.ok.injEq, Prod.mk.injEq] at h
  rw [← h.2]
  exact ⟨(hg w).1, by rw [(hg w).2.1], (hg w).2.2⟩

theorem after_ok {α : Type} {r : Except Fault (α × World)} {w1 : World}
    (h : after r = .ok w1) : ∃ a, r = .ok (a, w1) := by
  unfold after at h
  split at h
  · simp at h
  · next a w2 => simp only [Except.ok.injEq] at h; exact ⟨a, by rw [h]⟩

theorem step_quiet (K : HostDecls) (w : World) (op : Op) (w1 : World)
    (hi : op.is_init = false) (ht : op.is_teardown = false) (hr : op.is_read_key = false)
    (h : step K w op = .ok w1) :
    sent w1.trace = sent w.trace ∧ w1.instance_.isSome = w.instance_.isSome ∧
      w1.win_proc_calls = w.win_proc_calls := by
  cases op with
  | init_nhwindows u b => exact absurd hi (by simp [Op.is_init, Op.is_teardown, Op.is_read_key])
  | player_selection =>
    simp only [step] at h
    obtain ⟨a, ha⟩ := after_ok h
    exact quiet_rl_player_selection _ _ _ ha
  | askname =>
    simp only [step] at h
    obtain ⟨a, ha⟩ := after_ok h
    exact quiet_passthrough _ _ _ _ _ ha
  | get_nh_event =>
    simp only [step] at h
    obtain ⟨a, ha⟩ := after_ok h
    exact quiet_passthrough _ _ _ _ _ ha
  | exit_nhwindows => exact absurd ht (by simp [Op.is_init, Op.is_teardown, Op.is_read_key])
  | suspend_nhwindows =>
    simp only [step] at h
    obtain ⟨a, ha⟩ := after_ok h
    exact quiet_passthrough _ _ _ _ _ ha
  | resume_nhwindows =>
    simp only [step] at h
    obtain ⟨a, ha⟩ := after_ok h
    exact quiet_passthrough _ _ _ _ _ ha
  | create_nhwindow type wid =>
    simp only [step] at h
    obtain ⟨a, ha⟩ := after_ok h
    exact quiet_through_instance _ (quietMethod_create _ _) _ _ _ ha
  | clear_nhwindow host wid =>
    simp only [step] at h
    obtain ⟨a, ha⟩ := after_ok h
    exact quiet_ScopedStack _ _ (quiet_through_instance _ (quietMethod_clear _ _ _)) _ _ _ ha
  | display_nhwindow wid block =>
    simp only [step] at h
    obtain ⟨a, ha⟩ := after_ok h
    exact quiet_ScopedStack _ _ (quiet_through_instance _ (quietMethod_display _ _)) _ _ _ ha
  | destroy_nhwindow wid =>
    simp only [step] at h
    obtain ⟨a, ha⟩ := after_ok h
    exact quiet_ScopedStack _ _ (quiet_through_instance _ (quietMethod_destroy _)) _ _ _ ha
  | curs =>
    simp only [step] at h
    obtain ⟨a, ha⟩ := after_ok h
    exact quiet_passthrough _ _ _ _ _ ha
  | putstr wid attr text =>
    simp only [step] at h
    obtain ⟨a, ha⟩ := after_ok h
    exact quiet_rl_putstr _ _ _ _ _ _ ha
  | display_file =>
    simp only [step] at h
    obtain ⟨a, ha⟩ := after_ok h
    exact quiet_passthrough _ _ _ _ _ ha
  | start_menu wid =>
    simp only [step] at h
    obtain ⟨a, ha⟩ := after_ok h
    exact quiet_ScopedStack _ _ (quiet_through_instance _ (quietMethod_start_menu _)) _ _ _ ha
  | add_menu wid glyph identifier ch gch attr str presel =>
    simp only [step] at h
    obtain ⟨a, ha⟩ := after_ok h
    exact quiet_ScopedStack _ _
      (quiet_through_instance _ (quietMethod_add_menu _ _ _ _ _ _ _ _)) _ _ _ ha
  | end_menu =>
    simp only [step] at h
    obtain ⟨a, ha⟩ := after_ok h
    exact quiet_passthrough _ _ _ _ _ ha
  | select_menu response =>
    simp only [step] at h
    obtain ⟨a, ha⟩ := after_ok h
    exact quiet_ScopedStack _ _ (quiet_delegate _ _) _ _ _ ha
  | update_inventory invent =>
    simp only [step] at h
    obtain ⟨a, ha⟩ := after_ok h
    exact quiet_ScopedStack _ _ (quiet_through_instance _ (quietMethod_on_object _)) _ _ _ ha
  | mark_synch =>
    simp only [step] at h
    obtain ⟨a, ha⟩ := after_ok h
    exact quiet_passthrough _ _ _ _ _ ha
  | wait_synch =>
    simp only [step] at h
    obtain ⟨a, ha⟩ := after_ok h
    exact quiet_passthrough _ _ _ _ _ ha
  | cliparound =>
    simp only [step] at h
    obtain ⟨a, ha⟩ := after_ok h
    refine quiet_of_ok () (fun w => if K.CLIPPING then w.delegate "tty_cliparound" else w)
      (fun w => ?_) _ _ _ ha
    cases K.CLIPPING
    · exact ⟨rfl, rfl, rfl⟩
    · exact ⟨sent_delegate w _, rfl, rfl⟩
  | print_glyph host wid x y glyph ch color special =>
    simp only [step] at h
    obtain ⟨a, ha⟩ := after_ok h
    exact quiet_rl_print_glyph _ _ _ _ _ _ _ _ _ _ _ _ ha
  | raw_print =>
    simp only [step] at h
    obtain ⟨a, ha⟩ := after_ok h
    exact quiet_passthrough _ _ _ _ _ ha
  | raw_print_bold =>
    simp only [step] at h
    obtain ⟨a, ha⟩ := after_ok h
    exact quiet_passthrough _ _ _ _ _ ha
  | nhgetch host key => exact absurd hr (by simp [Op.is_init, Op.is_teardown, Op.is_read_key])
  | nh_poskey host key => exact absurd hr (by simp [Op.is_init, Op.is_teardown, Op.is_read_key])
  | nhbell =>
    simp only [step] at h
    obtain ⟨a, ha⟩ := after_ok h
    exact quiet_passthrough _ _ _ _ _ ha
  | doprev_message result =>
    simp only [step] at h
    obtain ⟨a, ha⟩ := after_ok h
    exact quiet_ScopedStack _ _ (quiet_delegate _ _) _ _ _ ha
  | yn_function result =>
    simp only [step] at h
    obtain ⟨a, ha⟩ := after_ok h
    exact quiet_ScopedStack _ _ (quiet_delegate _ _) _ _ _ ha
  | getlin =>
    simp only [step] at h
    obtain ⟨a, ha⟩ := after_ok h
    exact quiet_passthrough _ _ _ _ _ ha
  | get_ext_cmd result =>
    simp only [step] at h
    obtain ⟨a, ha⟩ := after_ok h
    exact quiet_ScopedStack _ _ (quiet_delegate _ _) _ _ _ ha
  | number_pad =>
    simp only [step] at h
    obtain ⟨a, ha⟩ := after_ok h
    exact quiet_passthrough _ _ _ _ _ ha
  | delay_output =>
    simp only [step] at h
    obtain ⟨a, ha⟩ := after_ok h
    exact quiet_of_ok () id (fun w => ⟨rfl, rfl, rfl⟩) _ _ _ ha
  | start_screen =>
    simp only [step] at h
    obtain ⟨a, ha⟩ := after_ok h
    exact quiet_passthrough _ _ _ _ _ ha
  | end_screen => exact absurd ht (by simp [Op.is_init, Op.is_teardown, Op.is_read_key])
  | outrip =>
    simp only [step] at h
    obtain ⟨a, ha⟩ := after_ok h
    exact quiet_delegate _ _ _ _ _ ha
  | getmsghistory result =>
    simp only [step] at h
    obtain ⟨a, ha⟩ := after_ok h
    exact quiet_delegate _ _ _ _ _ ha
  | putmsghistory =>
    simp only [step] at h
    obtain ⟨a, ha⟩ := after_ok h
    exact quiet_delegate _ _ _ _ _ ha
  | status_init =>
    simp only [step] at h
    obtain ⟨a, ha⟩ := after_ok h
    exact quiet_passthrough _ _ _ _ _ ha
  | status_update decode_mixed fldidx ptr =>
    simp only [step] at h
    obtain ⟨a, ha⟩ := after_ok h
    exact quiet_rl_status_update _ _ _ _ _ _ _ ha
  | update_positionbar =>
    simp only [step] at h
    obtain ⟨a, ha⟩ := after_ok h
    refine quiet_of_ok ()
      (fun w => if K.POSITIONBAR then w.delegate "tty_update_positionbar" else w)
      (fun w => ?_) _ _ _ ha
    cases K.POSITIONBAR
    · exact ⟨rfl, rfl, rfl⟩
    · exact ⟨sent_delegate w _, rfl, rfl⟩

theorem rl_nhgetch_eq (K : HostDecls) (host : Host) (key : Int) (w : World) (self : NetHackRL)
    (hi : w.instance_ = some self) :
    rl_nhgetch K host key w = .ok (key, { w with
      trace := w.trace ++
        [Event.send (observation_message K host (w.win_proc_calls ++ ["nhgetch"]) self),
         Event.tty "tty_nhgetch" (w.win_proc_calls ++ ["nhgetch"])] }) := by
  obtain ⟨i, c, t⟩ := w
  simp only at hi
  subst hi
  simp [rl_nhgetch, ScopedStack, through_instance, getch_method, World.send, World.delegate]

theorem rl_nhgetch_none (K : HostDecls) (host : Host) (key : Int) (w : World)
    (hi : w.instance_ = none) : rl_nhgetch K host key w = .error .null_deref := by
  obtain ⟨i, c, t⟩ := w
  simp only at hi
  subst hi
  simp [rl_nhgetch, ScopedStack, through_instance]

theorem rl_nh_poskey_eq (K : HostDecls) (host : Host) (key : Int) (w : World) (self : NetHackRL)
    (hi : w.instance_ = some self) :
    rl_nh_poskey K host key w = .ok (key, { w with
      trace := w.trace ++
        [Event.send (observation_message K host (w.win_proc_calls ++ ["nh_poskey", "nhgetch"]) self),
         Event.tty "tty_nhgetch" (w.win_proc_calls ++ ["nh_poskey", "nhgetch"])] }) := by
  obtain ⟨i, c, t⟩ := w
  simp only at hi
  subst hi
  simp [rl_nh_poskey, rl_nhgetch, ScopedStack, through_instance, getch_method, World.send,
    World.delegate]

theorem rl_nh_poskey_none (K : HostDecls) (host : Host) (key : Int) (w : World)
    (hi : w.instance_ = none) : rl_nh_poskey K host key w = .error .null_deref := by
  obtain ⟨i, c, t⟩ := w
  simp only at hi
  subst hi
  simp [rl_nh_poskey, rl_nhgetch, ScopedStack, through_instance]

theorem rl_exit_nhwindows_eq (w : World) :
    rl_exit_nhwindows w = .ok ((), { w with
      instance_ := none
      trace := w.trace ++ (if w.instance_.isSome then [Event.send sentinel_message] else [])
        ++ [Event.tty "tty_exit_nhwindows" (w.win_proc_calls ++ ["exit_nhwindows"])] }) := by
  obtain ⟨i, c, t⟩ := w
  cases i <;>
    simp [rl_exit_nhwindows, ScopedStack, reset_instance, NetHackRL.dtor, World.send,
      World.delegate]

theorem rl_end_screen_eq (w : World) :
    rl_end_screen w = .ok ((), { w with
      instance_ := none
      trace := w.trace ++ [Event.tty "tty_end_screen" (w.win_proc_calls ++ ["end_screen"])]
        ++ (if w.instance_.isSome then [Event.send sentinel_message] else []) }) := by
  obtain ⟨i, c, t⟩ := w
  cases i <;>
    simp [rl_end_screen, ScopedStack, reset_instance, NetHackRL.dtor, World.send,
      World.delegate]

theorem rl_init_nhwindows_eq (K : HostDecls) (u : Indeterminate) (w : World) :
    rl_init_nhwindows K u true w = .ok ((), { w with
      instance_ := some (NetHackRL.ctor K u)
      trace := w.trace ++ (if w.instance_.isSome then [Event.send sentinel_message] else [])
        ++ [Event.tty "tty_init_nhwindows" (w.win_proc_calls ++ ["init_nhwindows"])] }) := by
  obtain ⟨i, c, t⟩ := w
  cases i <;>
    simp [rl_init_nhwindows, ScopedStack, NetHackRL.dtor, World.send, World.delegate]

theorem rl_init_nhwindows_bind_failed (K : HostDecls) (u : Indeterminate) (w : World) :
    rl_init_nhwindows K u false w = .error .bind_failed := by
  simp [rl_init_nhwindows, ScopedStack]

theorem observation_message_terminated (K : HostDecls) (host : Host) (calls : List String)
    (self : NetHackRL) : (observation_message K host calls self).terminated = false := by
  cases h : host.in_moveloop <;> simp [observation_message, fbs.CreateMessage, h]

theorem sentinel_terminated : sentinel_message.terminated = true := rfl

theorem run_append (K : HostDecls) (xs ys : List Op) : ∀ (w : World),
    run K w (xs ++ ys) =
      match run K w xs with
      | .error f => .error f
      | .ok w1 => run K w1 ys := by
  induction xs with
  | nil => intro w; rfl
  | cons op xs ih =>
    intro w
    simp only [List.cons_append, run]
    cases hs : step K w op with
    | error f => rfl
    | ok w1 => exact ih w1

theorem step_init_ok {K : HostDecls} {w : World} {u : Indeterminate} {b : Bool} {w1 : World}
    (h : step K w (.init_nhwindows u b) = .ok w1) :
    w1 = { w with
      instance_ := some (NetHackRL.ctor K u)
      trace := w.trace ++ (if w.instance_.isSome then [Event.send sentinel_message] else [])
        ++ [Event.tty "tty_init_nhwindows" (w.win_proc_calls ++ ["init_nhwindows"])] } := by
  cases b with
  | false => simp [step, rl_init_nhwindows_bind_failed, after] at h
  | true => simp only [step, rl_init_nhwindows_eq, after, Except.ok.injEq] at h; exact h.symm

theorem step_exit_ok {K : HostDecls} {w : World} {w1 : World}
    (h : step K w .exit_nhwindows = .ok w1) :
    w1 = { w with
      instance_ := none
      trace := w.trace ++ (if w.instance_.isSome then [Event.send sentinel_message] else [])
        ++ [Event.tty "tty_exit_nhwindows" (w.win_proc_calls ++ ["exit_nhwindows"])] } := by
  simp only [step, rl_exit_nhwindows_eq, after, Except.ok.injEq] at h; exact h.symm

theorem step_end_screen_ok {K : HostDecls} {w : World} {w1 : World}
    (h : step K w .end_screen = .ok w1) :
    w1 = { w with
      instance_ := none
      trace := w.trace ++ [Event.tty "tty_end_screen" (w.win_proc_calls ++ ["end_screen"])]
        ++ (if w.instance_.isSome then [Event.send sentinel_message] else []) } := by
  simp only [step, rl_end_screen_eq, after, Except.ok.injEq] at h; exact h.symm

theorem step_nhgetch_ok {K : HostDecls} {w : World} {host : Host} {key : Int} {w1 : World}
    (h : step K w (.nhgetch host key) = .ok w1) :
    ∃ self, w.instance_ = some self ∧ w1 = { w with
      trace := w.trace ++
        [Event.send (observation_message K host (w.win_proc_calls ++ ["nhgetch"]) self),
         Event.tty "tty_nhgetch" (w.win_proc_calls ++ ["nhgetch"])] } := by
  obtain ⟨i, c, t⟩ := w
  cases i with
  | none =>
    have e := rl_nhgetch_none K host key ⟨none, c, t⟩ rfl
    simp [step, e, after] at h
  | some self =>
    have e := rl_nhgetch_eq K host key ⟨some self, c, t⟩ self rfl
    simp only [step, e, after, Except.ok.injEq] at h
    exact ⟨self, rfl, h.symm⟩

theorem step_nh_poskey_ok {K : HostDecls} {w : World} {host : Host} {key : Int} {w1 : World}
    (h : step K w (.nh_poskey host key) = .ok w1) :
    ∃ self, w.instance_ = some self ∧ w1 = { w with
      trace := w.trace ++
        [Event.send
          (observation_message K host (w.win_proc_calls ++ ["nh_poskey", "nhgetch"]) self),
         Event.tty "tty_nhgetch" (w.win_proc_calls ++ ["nh_poskey", "nhgetch"])] } := by
  obtain ⟨i, c, t⟩ := w
  cases i with
  | none =>
    have e := rl_nh_poskey_none K host key ⟨none, c, t⟩ rfl
    simp [step, e, after] at h
  | some self =>
    have e := rl_nh_poskey_eq K host key ⟨some self, c, t⟩ self rfl
    simp only [step, e, after, Except.ok.injEq] at h
    exact ⟨self, rfl, h.symm⟩

theorem sent_snoc_send (t : List Event) (m : fbs.Message) (c : String) (st : List String) :
    sent (t ++ [Event.send m, Event.tty c st]) = sent t ++ [m] := by
  simp [sent_append, sent]

theorem sentinel_state_teardown (w : World) (hs : sentinel_state w) (t1 t2 : List Event)
    (h1 : sent t1 = []) (h2 : sent t2 = []) :
    ∃ pre, sent (w.trace ++ t1 ++ (if w.instance_.isSome then [Event.send sentinel_message] else [])
        ++ t2) = pre ++ [sentinel_message] ∧ ∀ m ∈ pre, m.terminated = false := by
  rcases hs with ⟨hi, hall⟩ | ⟨hi, pre, hp, hall⟩
  · refine ⟨sent w.trace, ?_, hall⟩
    rw [hi, if_pos rfl, sent_append, sent_append, sent_append, h1, h2, sent_send]
    simp
  · refine ⟨pre, ?_, hall⟩
    rw [hi]
    simp only [Option.isSome_none, Bool.false_eq_true, if_false]
    rw [sent_append, sent_append, sent_append, h1, h2, hp]
    simp [sent]

theorem step_teardown_state (K : HostDecls) (w : World) (op : Op) (w1 : World)
    (ht : op.is_teardown = true) (h : step K w op = .ok w1) (hs : sentinel_state w) :
    w1.instance_ = none ∧
      ∃ pre, sent w1.trace = pre ++ [sentinel_message] ∧ ∀ m ∈ pre, m.terminated = false := by
  cases op <;> simp [Op.is_teardown] at ht
  · rw [step_exit_ok h]
    refine ⟨rfl, ?_⟩
    have := sentinel_state_teardown w hs []
      [Event.tty "tty_exit_nhwindows" (w.win_proc_calls ++ ["exit_nhwindows"])] rfl rfl
    simpa using this
  · rw [step_end_screen_ok h]
    refine ⟨rfl, ?_⟩
    have := sentinel_state_teardown w hs
      [Event.tty "tty_end_screen" (w.win_proc_calls ++ ["end_screen"])] [] rfl rfl
    simpa using this

theorem step_sentinel_state (K : HostDecls) (w : World) (op : Op) (w1 : World)
    (hi : op.is_init = false) (h : step K w op = .ok w1) (hs : sentinel_state w) :
    sentinel_state w1 := by
  by_cases ht : op.is_teardown = true
  · exact Or.inr (step_teardown_state K w op w1 ht h hs)
  · by_cases hr : op.is_read_key = true
    · have key : ∃ self m c st, w.instance_ = some self ∧ m.terminated = false ∧
          w1 = { w with trace := w.trace ++ [Event.send m, Event.tty c st] } := by
        cases op <;> simp [Op.is_read_key] at hr
        · obtain ⟨self, hself, e⟩ := step_nhgetch_ok h
          exact ⟨self, _, _, _, hself, observation_message_terminated _ _ _ _, e⟩
        · obtain ⟨self, hself, e⟩ := step_nh_poskey_ok h
          exact ⟨self, _, _, _, hself, observation_message_terminated _ _ _ _, e⟩
      obtain ⟨self, m, c, st, hself, hm, e⟩ := key
      rcases hs with ⟨_, hall⟩ | ⟨hn, _⟩
      · left
        rw [e]
        refine ⟨by simp [hself], ?_⟩
        intro m' hm'
        simp only [sent_snoc_send, List.mem_append, List.mem_singleton] at hm'
        rcases hm' with hm' | hm'
        · exact hall m' hm'
        · rw [hm']; exact hm
      · rw [hn] at hself; simp at hself
    · obtain ⟨e1, e2, -⟩ := step_quiet K w op w1 hi (by simpa using ht) (by simpa using hr) h
      rcases hs with ⟨hsome, hall⟩ | ⟨hn, hp⟩
      · left; exact ⟨by rw [e2]; exact hsome, by rw [e1]; exact hall⟩
      · right
        refine ⟨?_, by rw [e1]; exact hp⟩
        rw [hn] at e2
        cases hw : w1.instance_ with
        | none => rfl
        | some x => rw [hw] at e2; simp at e2

theorem run_sentinel_state (K : HostDecls) (ops : List Op) : ∀ (w w1 : World),
    ops.all (fun op => !op.is_init) = true → run K w ops = .ok w1 → sentinel_state w →
    sentinel_state w1 := by
  induction ops with
  | nil =>
    intro w w1 _ h hs
    simp only [run, Except.ok.injEq] at h
    rw [← h]; exact hs
  | cons op ops ih =>
    intro w w1 hall h hs
    simp only [List.all_cons, Bool.and_eq_true, Bool.not_eq_true'] at hall
    simp only [run] at h
    cases hstep : step K w op with
    | error f => rw [hstep] at h; simp at h
    | ok w2 =>
      rw [hstep] at h
      exact ih w2 w1 hall.2 h (step_sentinel_state K w op w2 hall.1 hstep hs)

/-- C7: for every sequence of calls through the table that starts with
rl_init_nhwindows, contains no further init (one bridge instance), ends with a
teardown call (rl_exit_nhwindows or rl_end_screen) and runs without a fault,
exactly one of the messages sent is terminated, and it is the sentinel and
the last message sent. -/
theorem C7_one_sentinel_last (K : HostDecls) (u : Indeterminate) (b : Bool) (ops : List Op)
    (last : Op) (w1 : World)
    (hops : ops.all (fun op => !op.is_init) = true) (hlast : last.is_teardown = true)
    (hrun : run K World.start (Op.init_nhwindows u b :: ops ++ [last]) = .ok w1) :
    ((sent w1.trace).filter fun m => m.terminated).length = 1 ∧
    (sent w1.trace).getLast? = some sentinel_message ∧
    sentinel_message.terminated = true := by
  simp only [run] at hrun
  cases h0 : step K World.start (Op.init_nhwindows u b) with
  | error f => rw [h0] at hrun; simp at hrun
  | ok w0 =>
    rw [h0] at hrun
    simp only at hrun
    replace hrun : run K w0 (ops ++ [last]) = .ok w1 := hrun
    rw [run_append] at hrun
    have hs0 : sentinel_state w0 := by
      rw [step_init_ok h0]
      left
      exact ⟨rfl, by simp [World.start, sent_append, sent_tty, sent]⟩
    cases h2 : run K w0 ops with
    | error f => rw [h2] at hrun; simp at hrun
    | ok w2 =>
      rw [h2] at hrun
      simp only [run] at hrun
      cases h3 : step K w2 last with
      | error f => rw [h3] at hrun; simp at hrun
      | ok w3 =>
        rw [h3] at hrun
        simp only [Except.ok.injEq] at hrun
        subst hrun
        obtain ⟨-, pre, hp, hall⟩ :=
          step_teardown_state K w2 last w3 hlast h3 (run_sentinel_state K ops w0 w2 hops h2 hs0)
        rw [hp]
        refine ⟨?_, by simp, rfl⟩
        have hpre : pre.filter (fun m => m.terminated) = [] := by
          rw [List.filter_eq_nil_iff]
          intro m hm
          simp [hall m hm]
        simp [List.filter_append, hpre, sentinel_terminated]

/-- C7 (witness): init, a window, a line of text, a key read, exit and
end-screen send two messages, the second being the only sentinel. -/
theorem C7_witness :
    ∃ w1, run nethack36 World.start (Op.init_nhwindows zeroed true :: short_game ++ [Op.end_screen])
        = .ok w1 ∧
      (((sent w1.trace).filter fun m => m.terminated).length = 1 ∧
       (sent w1.trace).getLast? = some sentinel_message ∧
       sentinel_message.terminated = true) ∧
      (sent w1.trace).length = 2 :=
  ⟨_, rfl, C7_one_sentinel_last nethack36 zeroed true short_game Op.end_screen _ rfl rfl rfl, rfl⟩

/-- C8: for every state in which the bridge object exists, rl_nhgetch (and
rl_nh_poskey, which calls it) returns the key that tty_nhgetch hands back,
unchanged; the trace grows by exactly two events, first the send of the
snapshot encoded from the shadow state and the host facts as they stand at the
call, then the call of tty_nhgetch; exactly one message is sent; the bridge
object and the call stack are the same after the call as before it. -/
theorem C8_snapshot_then_read (K : HostDecls) (host : Host) (key : Int) (w : World)
    (self : NetHackRL) (hi : w.instance_ = some self) :
    (∃ w1, rl_nhgetch K host key w = .ok (key, w1) ∧
      w1.trace = w.trace ++
        [Event.send (observation_message K host (w.win_proc_calls ++ ["nhgetch"]) self),
         Event.tty "tty_nhgetch" (w.win_proc_calls ++ ["nhgetch"])] ∧
      sent w1.trace = sent w.trace ++
        [observation_message K host (w.win_proc_calls ++ ["nhgetch"]) self] ∧
      w1.instance_ = some self ∧ w1.win_proc_calls = w.win_proc_calls) ∧
    (∃ w1, rl_nh_poskey K host key w = .ok (key, w1) ∧
      w1.trace = w.trace ++
        [Event.send
          (observation_message K host (w.win_proc_calls ++ ["nh_poskey", "nhgetch"]) self),
         Event.tty "tty_nhgetch" (w.win_proc_calls ++ ["nh_poskey", "nhgetch"])] ∧
      sent w1.trace = sent w.trace ++
        [observation_message K host (w.win_proc_calls ++ ["nh_poskey", "nhgetch"]) self] ∧
      w1.instance_ = some self ∧ w1.win_proc_calls = w.win_proc_calls) := by
  constructor
  · exact ⟨_, rl_nhgetch_eq K host key w self hi, rfl, sent_snoc_send _ _ _ _, hi, rfl⟩
  · exact ⟨_, rl_nh_poskey_eq K host key w self hi, rfl, sent_snoc_send _ _ _ _, hi, rfl⟩

/-- C8 (witness): the statement for a bridge holding a map window, called from
inside display_nhwindow, with the real key 104. -/
theorem C8_witness :
    (⟨some one_map_object, ["display_nhwindow"], []⟩ : World).instance_ = some one_map_object ∧
    ((∃ w1, rl_nhgetch nethack36 idle_host 104 ⟨some one_map_object, ["display_nhwindow"], []⟩
        = .ok (104, w1) ∧
      w1.trace = (⟨some one_map_object, ["display_nhwindow"], []⟩ : World).trace ++
        [Event.send (observation_message nethack36 idle_host
            ((⟨some one_map_object, ["display_nhwindow"], []⟩ : World).win_proc_calls
              ++ ["nhgetch"]) one_map_object),
         Event.tty "tty_nhgetch"
           ((⟨some one_map_object, ["display_nhwindow"], []⟩ : World).win_proc_calls
             ++ ["nhgetch"])] ∧
      sent w1.trace = sent (⟨some one_map_object, ["display_nhwindow"], []⟩ : World).trace ++
        [observation_message nethack36 idle_host
          ((⟨some one_map_object, ["display_nhwindow"], []⟩ : World).win_proc_calls
            ++ ["nhgetch"]) one_map_object] ∧
      w1.instance_ = some one_map_object ∧
      w1.win_proc_calls = (⟨some one_map_object, ["display_nhwindow"], []⟩ : World).win_proc_calls) ∧
    (∃ w1, rl_nh_poskey nethack36 idle_host 104 ⟨some one_map_object, ["display_nhwindow"], []⟩
        = .ok (104, w1) ∧
      w1.trace = (⟨some one_map_object, ["display_nhwindow"], []⟩ : World).trace ++
        [Event.send (observation_message nethack36 idle_host
            ((⟨some one_map_object, ["display_nhwindow"], []⟩ : World).win_proc_calls
              ++ ["nh_poskey", "nhgetch"]) one_map_object),
         Event.tty "tty_nhgetch"
           ((⟨some one_map_object, ["display_nhwindow"], []⟩ : World).win_proc_calls
             ++ ["nh_poskey", "nhgetch"])] ∧
      sent w1.trace = sent (⟨some one_map_object, ["display_nhwindow"], []⟩ : World).trace ++
        [observation_message nethack36 idle_host
          ((⟨some one_map_object, ["display_nhwindow"], []⟩ : World).win_proc_calls
            ++ ["nh_poskey", "nhgetch"]) one_map_object] ∧
      w1.instance_ = some one_map_object ∧
      w1.win_proc_calls
        = (⟨some one_map_object, ["display_nhwindow"], []⟩ : World).win_proc_calls)) :=
  ⟨rfl, C8_snapshot_then_read nethack36 idle_host 104
    ⟨some one_map_object, ["display_nhwindow"], []⟩ one_map_object rfl⟩

theorem calls_of_send (m : fbs.Message) : calls_of [Event.send m] = [] := rfl

theorem emits_of_ok {α : Type} (a : α) (cs : List String) (g : World → World)
    (hg : ∀ w, calls_of (g w).trace = calls_of w.trace ++ cs.map (fun c => (c, w.win_proc_calls))
      ∧ (g w).win_proc_calls = w.win_proc_calls) :
    Emits cs [] (fun w => (Except.ok (a, g w) : Except Fault (α × World))) := by
  intro w a1 w1 h
  simp only [Except.ok.injEq, Prod.mk.injEq] at h
  rw [← h.2]
  exact ⟨by simpa using (hg w).1, (hg w).2⟩

/-- C16 (amended): for every state and every call through the table that
returns: a call that is neither of the read-key family nor a teardown, and
that is not an init made while a bridge object exists, leaves the sequence of
messages sent unchanged; rl_nhgetch and rl_nh_poskey each send exactly one
message, the snapshot of the existing bridge object encoded under their tags,
with terminated false; a teardown or an init sends exactly the sentinel when a
bridge object exists, which it destroys, and nothing when none exists; after
an init the new object is in place, after a teardown there is none. -/
theorem C16_only_read_key_sends (K : HostDecls) (w : World) (op : Op) (w1 : World)
    (h : step K w op = .ok w1) :
    (op.is_read_key = false → op.is_teardown = false →
      (op.is_init = true → w.instance_ = none) → sent w1.trace = sent w.trace) ∧
    (∀ host key, op = Op.nhgetch host key →
      ∃ self, w.instance_ = some self ∧
        sent w1.trace = sent w.trace ++
          [observation_message K host (w.win_proc_calls ++ ["nhgetch"]) self] ∧
        (observation_message K host (w.win_proc_calls ++ ["nhgetch"]) self).terminated
          = false) ∧
    (∀ host key, op = Op.nh_poskey host key →
      ∃ self, w.instance_ = some self ∧
        sent w1.trace = sent w.trace ++
          [observation_message K host (w.win_proc_calls ++ ["nh_poskey", "nhgetch"]) self] ∧
        (observation_message K host (w.win_proc_calls ++ ["nh_poskey", "nhgetch"]) self).terminated
          = false) ∧
    (op.is_teardown = true ∨ op.is_init = true →
      sent w1.trace
        = sent w.trace ++ (if w.instance_.isSome then [sentinel_message] else [])) ∧
    (∀ u b, op = Op.init_nhwindows u b → w1.instance_ = some (NetHackRL.ctor K u)) ∧
    (op.is_teardown = true → w1.instance_ = none) := by
  refine ⟨?_, ?_, ?_, ?_, ?_, ?_⟩
  · intro hr ht hinit
    by_cases hi : op.is_init = true
    · have hn := hinit hi
      cases op <;> simp [Op.is_init] at hi
      rw [step_init_ok h, hn]
      simp [sent_append, sent]
    · exact (step_quiet K w op w1 (by simpa using hi) ht hr h).1
  · intro host key e
    subst e
    obtain ⟨self, hself, e⟩ := step_nhgetch_ok h
    exact ⟨self, hself, by rw [e]; exact sent_snoc_send _ _ _ _,
      observation_message_terminated _ _ _ _⟩
  · intro host key e
    subst e
    obtain ⟨self, hself, e⟩ := step_nh_poskey_ok h
    exact ⟨self, hself, by rw [e]; exact sent_snoc_send _ _ _ _,
      observation_message_terminated _ _ _ _⟩
  · intro hti
    cases op <;> simp [Op.is_teardown, Op.is_init] at hti
    · rw [step_init_ok h]
      cases w.instance_ <;> simp [sent_append, sent]
    · rw [step_exit_ok h]
      cases w.instance_ <;> simp [sent_append, sent]
    · rw [step_end_screen_ok h]
      cases w.instance_ <;> simp [sent_append, sent]
  · intro u b e
    subst e
    rw [step_init_ok h]
  · intro ht
    cases op <;> simp [Op.is_teardown] at ht
    · rw [step_exit_ok h]
    · rw [step_end_screen_ok h]

/-- C16 (witness): a put-string on the base window after init sends nothing. -/
theorem C16_witness :
    ∃ w0 w1, run nethack36 World.start [Op.init_nhwindows zeroed true] = .ok w0 ∧
      step nethack36 w0 (Op.putstr 0 0 "Hello") = .ok w1 ∧
      sent w1.trace = sent w0.trace := by
  refine ⟨_, _, rfl, rfl, ?_⟩
  exact (C16_only_read_key_sends nethack36 _ (Op.putstr 0 0 "Hello") _ (by rfl)).1 rfl rfl
    (fun h => absurd h (by decide))

/-- C16 (counterexample): rl_init_nhwindows, which is neither of the read-key
family nor a teardown call, called while a bridge object exists, destroys
that object and so sends its sentinel: the messages sent go from none to
one. -/
theorem C16_counterexample :
    ∃ w0 w1, run nethack36 World.start [Op.init_nhwindows zeroed true] = .ok w0 ∧
      (Op.init_nhwindows zeroed true).is_read_key = false ∧
      (Op.init_nhwindows zeroed true).is_teardown = false ∧
      step nethack36 w0 (Op.init_nhwindows zeroed true) = .ok w1 ∧
      sent w0.trace = [] ∧ sent w1.trace = [sentinel_message] :=
  ⟨_, _, rfl, rfl, rfl, rfl, rfl, rfl⟩

theorem encode_windows_eq (ws : List (Option rl_window)) : ∀ n : Nat,
    encode_windows ws = (live_from n ws).map fun p => encode_window p.2 := by
  induction ws with
  | nil => intro n; rfl
  | cons a ws ih =>
    intro n
    cases a with
    | none => simp only [encode_windows, live_from]; exact ih (n + 1)
    | some win => simp only [encode_windows, live_from, List.map_cons]; rw [ih (n + 1)]

theorem mem_live_from (ws : List (Option rl_window)) : ∀ (n h : Nat) (win : rl_window),
    (h, win) ∈ live_from n ws ↔ n ≤ h ∧ ws[h - n]? = some (some win) := by
  induction ws with
  | nil => intro n h win; simp [live_from]
  | cons a ws ih =>
    intro n h win
    have hstep : ∀ (hlt : n < h), (a :: ws)[h - n]? = ws[h - (n + 1)]? := by
      intro hlt
      have : h - n = (h - (n + 1)) + 1 := by omega
      rw [this, List.getElem?_cons_succ]
    cases a with
    | none =>
      simp only [live_from, ih (n + 1) h win]
      constructor
      · rintro ⟨h1, h2⟩
        exact ⟨by omega, by rw [hstep (by omega)]; exact h2⟩
      · rintro ⟨h1, h2⟩
        have hne : n ≠ h := by
          intro e; subst e; simp at h2
        have hlt : n < h := by omega
        exact ⟨by omega, by rw [← hstep hlt]; exact h2⟩
    | some win0 =>
      simp only [live_from, List.mem_cons, Prod.mk.injEq, ih (n + 1) h win]
      constructor
      · rintro (⟨h1, h2⟩ | ⟨h1, h2⟩)
        · subst h1; subst h2; simp
        · exact ⟨by omega, by rw [hstep (by omega)]; exact h2⟩
      · rintro ⟨h1, h2⟩
        by_cases hne : n = h
        · subst hne
          left
          simp at h2
          exact ⟨rfl, h2.symm⟩
        · have hlt : n < h := by omega
          right
          exact ⟨by omega, by rw [← hstep hlt]; exact h2⟩

theorem observation_message_windows (K : HostDecls) (host : Host) (calls : List String)
    (self : NetHackRL) :
    (observation_message K host calls self).windows = some (encode_windows self.windows_) := by
  cases h : host.in_moveloop <;> simp [observation_message, fbs.CreateMessage, h]

theorem encode_window_fields (win : rl_window) :
    (encode_window win).type = win.type ∧
    (encode_window win).strings.getD [] = win.strings ∧
    (encode_window win).menu_items.getD [] = win.menu_items.map encode_menu_item := by
  refine ⟨rfl, ?_, ?_⟩
  · simp only [encode_window]
    cases win.strings <;> simp
  · simp only [encode_window]
    cases win.menu_items <;> simp

theorem add_menu_all_eq (wid : Nat) (es : List menu_args) :
    ∀ (self : NetHackRL) (w : World) (win : rl_window),
      self.windows_[wid]? = some (some win) →
      ∃ w1, add_menu_all wid self w es = .ok ({ self with
        windows_ := (self.windows_.set wid
          (some { win with menu_items := win.menu_items ++ es.map menu_args.item })) }, w1) := by
  induction es with
  | nil =>
    intro self w win hw
    refine ⟨w, ?_⟩
    simp only [add_menu_all, List.map_nil, List.append_nil]
    have : self.windows_.set wid (some win) = self.windows_ := by
      apply List.ext_getElem?
      intro i
      rw [List.getElem?_set]
      by_cases hi : wid = i
      · subst hi
        have hlt := (List.getElem?_eq_some_iff.1 hw).1
        simp [hlt, hw]
      · simp [hi]
    rw [this]
  | cons e es ih =>
    intro self w win hw
    have hlt := (List.getElem?_eq_some_iff.1 hw).1
    simp only [add_menu_all, add_menu_method, hw]
    obtain ⟨w1, h1⟩ := ih
      { self with windows_ := (self.windows_.set wid
          (some { win with menu_items := win.menu_items ++ [e.item] })) }
      (w.delegate "tty_add_menu")
      { win with menu_items := win.menu_items ++ [e.item] }
      (by simp [hlt])
    refine ⟨w1, ?_⟩
    simp only [menu_args.item] at h1 ⊢
    rw [h1]
    simp [List.set_set, List.append_assoc, menu_args.item]

theorem to_char_of_range (v : Int) (h1 : -128 ≤ v) (h2 : v ≤ 127) : to_char v = v := by
  unfold to_char; omega

theorem to_char_wraps : to_char 200 = -56 ∧ to_char 97 = 97 := by decide

theorem entry_eq_verbatim (e : menu_args) (h : e.chars_ok) : e.entry = e.verbatim := by
  simp only [menu_args.entry, menu_args.verbatim,
    to_char_of_range e.ch h.1.1 h.1.2, to_char_of_range e.gch h.2.1 h.2.2]

/-- C12: for every live window handle and every list of add_menu arguments,
start_menu_method followed by one add_menu_method call per element returns
and leaves the window with exactly the records of those calls, in call order,
whatever menu items it held before; the window keeps its handle in the
snapshot list, and its entry lists exactly one item per call, in call order,
with glyph, selector, group selector, label and selected flag, the two
selectors being the chars that the method receives: the values passed when
those are chars, and the values narrowed to char otherwise. -/
theorem C12_menu_items (self : NetHackRL) (wid : Nat) (w : World) (es : List menu_args)
    (hl : live self.windows_ wid = true) :
    ∃ win s w1, self.windows_[wid]? = some (some win) ∧
      start_and_add self wid w es = .ok (s, w1) ∧
      s.windows_ = self.windows_.set wid (some { win with menu_items := es.map menu_args.item }) ∧
      (wid, { win with menu_items := es.map menu_args.item }) ∈ live_from 0 s.windows_ ∧
      (∀ (K : HostDecls) (host : Host) (calls : List String),
        (observation_message K host calls s).windows
          = some ((live_from 0 s.windows_).map fun p => encode_window p.2)) ∧
      (encode_window { win with menu_items := es.map menu_args.item }).menu_items.getD []
        = es.map menu_args.entry ∧
      ((∀ e ∈ es, e.chars_ok) →
        (encode_window { win with menu_items := es.map menu_args.item }).menu_items.getD []
          = es.map menu_args.verbatim) := by
  obtain ⟨win, hw⟩ := (live_eq_true_iff _ _).1 hl
  have hlt := (List.getElem?_eq_some_iff.1 hw).1
  obtain ⟨w1, h1⟩ := add_menu_all_eq wid es
    { self with windows_ := self.windows_.set wid (some { win with menu_items := [] }) }
    (w.delegate "tty_start_menu") { win with menu_items := [] } (by simp [hlt])
  have hs : start_and_add self wid w es = .ok ({ self with
      windows_ := self.windows_.set wid (some { win with menu_items := es.map menu_args.item }) },
      w1) := by
    simp only [start_and_add, start_menu_method, hw]
    rw [h1]
    simp [List.set_set]
  have hentries : (encode_window { win with menu_items := es.map menu_args.item }).menu_items.getD []
      = es.map menu_args.entry := by
    rw [(encode_window_fields _).2.2]
    simp [encode_menu_item, menu_args.item, menu_args.entry, Function.comp_def]
  refine ⟨win, _, w1, hw, hs, rfl, ?_, ?_, hentries, ?_⟩
  · rw [mem_live_from]
    simp [hlt]
  · intro K host calls
    rw [observation_message_windows, encode_windows_eq _ 0]
  · intro hch
    rw [hentries]
    exact List.map_congr_left fun e he => entry_eq_verbatim e (hch e he)

/-- C12 (witness): on a menu window that holds an old item, start-menu and the
additions of Attack and Wait, whose selectors are chars, leave exactly those
two items, in that order. -/
theorem C12_witness :
    live menu_object.windows_ 1 = true ∧
    (∀ e ∈ attack_wait, e.chars_ok) ∧
    ∃ win s w1, menu_object.windows_[1]? = some (some win) ∧
      start_and_add menu_object 1 World.start attack_wait = .ok (s, w1) ∧
      s.windows_ = menu_object.windows_.set 1
        (some { win with menu_items := attack_wait.map menu_args.item }) ∧
      (1, { win with menu_items := attack_wait.map menu_args.item }) ∈ live_from 0 s.windows_ ∧
      (∀ (K : HostDecls) (host : Host) (calls : List String),
        (observation_message K host calls s).windows
          = some ((live_from 0 s.windows_).map fun p => encode_window p.2)) ∧
      (encode_window { win with menu_items := attack_wait.map menu_args.item }).menu_items.getD []
        = attack_wait.map menu_args.entry ∧
      ((∀ e ∈ attack_wait, e.chars_ok) →
        (encode_window { win with menu_items := attack_wait.map menu_args.item }).menu_items.getD []
          = attack_wait.map menu_args.verbatim) :=
  ⟨by decide,
    by
      intro e he
      simp only [attack_wait, List.mem_cons, List.mem_singleton, List.not_mem_nil, or_false] at he
      rcases he with rfl | rfl <;> simp [menu_args.chars_ok],
    C12_menu_items menu_object 1 World.start attack_wait (by decide)⟩

theorem status_update_method_store (K : HostDecls) (decode_mixed : String → String)
    (self : NetHackRL) (fldidx : Int) (ptr : genericptr_t)
    (h1 : K.BL_RESET ≤ fldidx) (h2 : fldidx < (K.MAXBLSTATS : Int))
    (h3 : fldidx ≠ K.BL_FLUSH) (h4 : fldidx ≠ K.BL_RESET)
    (h5 : fldidx ≠ (K.BL_CONDITION : Int)) (h6 : fldidx ≠ (K.BL_GOLD : Int))
    (h0 : 0 ≤ fldidx) :
    status_update_method K decode_mixed self fldidx ptr
      = .ok { self with status_ := self.status_.set fldidx.toNat ptr.as_text } := by
  have hlt : fldidx.toNat < K.MAXBLSTATS := by omega
  have hr : ¬ (fldidx < K.BL_RESET ∨ fldidx ≥ (K.MAXBLSTATS : Int)) := by omega
  have hf : ¬ (fldidx = K.BL_FLUSH ∨ fldidx = K.BL_RESET) := by
    rintro (h | h)
    · exact h3 h
    · exact h4 h
  simp only [status_update_method, hr, hf, h5, h6, if_false, h0, hlt, and_self, if_true]

theorem status_at_set (self : NetHackRL) (i j : Nat) (text : String)
    (hlen : i < self.status_.length) :
    status_at { self with status_ := self.status_.set i text } j
      = if i = j then text else status_at self j := by
  simp only [status_at, List.getD_eq_getElem?_getD, List.getElem?_set]
  by_cases hij : i = j
  · subst hij; simp [hlen]
  · simp [hij]

/-- C13: for every status-field index that passes the range check and is not
the flush, reset, condition or gold index (the host enumeration having no
other value below zero than the two reserved ones, and status_ having its
MAXBLSTATS slots), status_update_method returns, stores the text verbatim in
the slot of that index, leaves every other slot, the condition bitmask and the
rest of the shadow state unchanged, and the status block of every later
full-schema snapshot reports that text in the field of that index. -/
theorem C13_status_text_stored (K : HostDecls) (decode_mixed : String → String)
    (self : NetHackRL) (fldidx : Int) (ptr : genericptr_t)
    (hK : K.reserved_below_zero) (hlen : self.status_.length = K.MAXBLSTATS)
    (h1 : K.BL_RESET ≤ fldidx) (h2 : fldidx < (K.MAXBLSTATS : Int))
    (h3 : fldidx ≠ K.BL_FLUSH) (h4 : fldidx ≠ K.BL_RESET)
    (h5 : fldidx ≠ (K.BL_CONDITION : Int)) (h6 : fldidx ≠ (K.BL_GOLD : Int)) :
    ∃ s, status_update_method K decode_mixed self fldidx ptr = .ok s ∧
      s.status_[fldidx.toNat]? = some ptr.as_text ∧
      (∀ j, j ≠ fldidx.toNat → s.status_[j]? = self.status_[j]?) ∧
      s.condition_bits_ = self.condition_bits_ ∧
      s.windows_ = self.windows_ ∧ s.glyphs_ = self.glyphs_ ∧ s.inventory_ = self.inventory_ ∧
      (∀ (host : Host) (calls : List String), host.in_moveloop = true →
        ∃ o, (observation_message K host calls s).observation = some o ∧
          (fldidx = (K.BL_TITLE : Int) → o.status.title = ptr.as_text) ∧
          (fldidx = (K.BL_STR : Int) → o.status.strength = ptr.as_text) ∧
          (fldidx = (K.BL_DX : Int) → o.status.dexterity = ptr.as_text) ∧
          (fldidx = (K.BL_CO : Int) → o.status.constitution = ptr.as_text) ∧
          (fldidx = (K.BL_IN : Int) → o.status.intelligence = ptr.as_text) ∧
          (fldidx = (K.BL_WI : Int) → o.status.wisdom = ptr.as_text) ∧
          (fldidx = (K.BL_CH : Int) → o.status.charisma = ptr.as_text) ∧
          (fldidx = (K.BL_ALIGN : Int) → o.status.alignment = ptr.as_text) ∧
          (fldidx = (K.BL_SCORE : Int) → o.status.score = ptr.as_text) ∧
          (fldidx = (K.BL_CAP : Int) → o.status.carrying_capacity = ptr.as_text) ∧
          (fldidx = (K.BL_ENE : Int) → o.status.energy = ptr.as_text) ∧
          (fldidx = (K.BL_ENEMAX : Int) → o.status.max_energy = ptr.as_text) ∧
          (fldidx = (K.BL_XP : Int) → o.status.experience_level = ptr.as_text) ∧
          (fldidx = (K.BL_AC : Int) → o.status.armor_class = ptr.as_text) ∧
          (fldidx = (K.BL_HD : Int) → o.status.monster_level = ptr.as_text) ∧
          (fldidx = (K.BL_TIME : Int) → o.status.time = ptr.as_text) ∧
          (fldidx = (K.BL_HUNGER : Int) → o.status.hunger = ptr.as_text) ∧
          (fldidx = (K.BL_HP : Int) → o.status.hitpoints = ptr.as_text) ∧
          (fldidx = (K.BL_HPMAX : Int) → o.status.max_hitpoints = ptr.as_text) ∧
          (fldidx = (K.BL_LEVELDESC : Int) → o.status.dungeon_level = ptr.as_text) ∧
          (fldidx = (K.BL_EXP : Int) → o.status.experience_points = ptr.as_text)) := by
  have h0 : 0 ≤ fldidx := by
    by_contra hneg
    rcases hK fldidx h1 (by omega) with h | h
    · exact h4 h
    · exact h3 h
  have hlt : fldidx.toNat < self.status_.length := by omega
  refine ⟨_, status_update_method_store K decode_mixed self fldidx ptr h1 h2 h3 h4 h5 h6 h0,
    ?_, ?_, rfl, rfl, rfl, rfl, ?_⟩
  · simp [List.getElem?_set, hlt]
  · intro j hj
    simp [List.getElem?_set, Ne.symm hj]
  · intro host calls hm
    refine ⟨_, by rw [observation_message_full K host calls _ hm], ?_⟩
    simp only [encode_observation, encode_status, status_at_set _ _ _ _ hlt]
    refine ⟨?_, ?_, ?_, ?_, ?_, ?_, ?_, ?_, ?_, ?_, ?_, ?_, ?_, ?_, ?_, ?_, ?_, ?_, ?_, ?_, ?_⟩ <;>
      intro hf <;> rw [if_pos (by omega)]

/-- C13 (witness): updating the hit-points field (index 18 in NetHack 3.6) with
the text 15 makes the status block report 15 for hit points. -/
theorem C13_witness :
    ∃ s, status_update_method nethack36 id (NetHackRL.ctor nethack36 zeroed) 18 ⟨0, "15"⟩ = .ok s ∧
      s.status_[18]? = some "15" ∧
      ∃ o, (observation_message nethack36 host_hp_12000 [] s).observation = some o ∧
        o.status.hitpoints = "15" := by
  obtain ⟨s, hs, h1, -, -, -, -, -, h2⟩ := C13_status_text_stored nethack36 id
    (NetHackRL.ctor nethack36 zeroed) 18 ⟨0, "15"⟩
    (by intro i h1 h2; simp only [nethack36] at h1 ⊢; omega) (by simp [NetHackRL.ctor, nethack36])
    (by decide) (by decide) (by decide) (by decide) (by decide) (by decide)
  obtain ⟨o, ho, hf⟩ := h2 host_hp_12000 [] rfl
  exact ⟨s, hs, h1, o, ho, hf.2.2.2.2.2.2.2.2.2.2.2.2.2.2.2.2.2.1 rfl⟩

/-- C14: for every state and every field index that is below the reset index,
at or above the field count, or one of the reserved indices flush and reset,
status_update_method returns normally with the whole bridge object, so all
status strings and the condition bitmask, unchanged, whatever the value
argument is. -/
theorem C14_status_ignored (K : HostDecls) (decode_mixed : String → String)
    (self : NetHackRL) (fldidx : Int) (ptr : genericptr_t)
    (h : fldidx < K.BL_RESET ∨ fldidx ≥ (K.MAXBLSTATS : Int) ∨ fldidx = K.BL_FLUSH ∨
      fldidx = K.BL_RESET) :
    status_update_method K decode_mixed self fldidx ptr = .ok self := by
  unfold status_update_method
  by_cases hr : fldidx < K.BL_RESET ∨ fldidx ≥ (K.MAXBLSTATS : Int)
  · rw [if_pos hr]
  · rw [if_neg hr]
    have hf : fldidx = K.BL_FLUSH ∨ fldidx = K.BL_RESET := by
      rcases h with h | h | h | h
      · exact absurd (Or.inl h) hr
      · exact absurd (Or.inr h) hr
      · exact Or.inl h
      · exact Or.inr h
    rw [if_pos hf]

/-- C14 (witness): the flush index -1 of NetHack 3.6 leaves the object as it
was. -/
theorem C14_witness :
    ((-1 : Int) < nethack36.BL_RESET ∨ (-1 : Int) ≥ (nethack36.MAXBLSTATS : Int) ∨
      (-1 : Int) = nethack36.BL_FLUSH ∨ (-1 : Int) = nethack36.BL_RESET) ∧
    status_update_method nethack36 id one_map_object (-1) ⟨7, "x"⟩ = .ok one_map_object :=
  ⟨by decide, C14_status_ignored nethack36 id one_map_object (-1) ⟨7, "x"⟩ (by decide)⟩

/-- C18 (evaluation at the failing input, and what holds): for a host whose
player has a maximum of -40000 hit points the scalar-stats block reports
25536, above 9999 and not the host value, because min(i, 9999) is stored
through int16_t without a lower clamp; for host values from -32768 up the
maximum hit points never exceed 9999 and equal the host value when that is at
most 9999; energy and maximum energy do so for every host value. -/
theorem C18_max_hitpoints_wrap :
    (∃ b, (observation_message nethack36 host_hpmax_low [] (NetHackRL.ctor nethack36 zeroed)).blstats
        = some b ∧
      host_hpmax_low.Upolyd = false ∧ host_hpmax_low.u_uhpmax = -40000 ∧
      b.max_hitpoints = 25536) ∧
    (∀ host : Host, -32768 ≤ (if host.Upolyd then host.u_mhmax else host.u_uhpmax) →
      (encode_blstats host).max_hitpoints ≤ 9999 ∧
      ((if host.Upolyd then host.u_mhmax else host.u_uhpmax) ≤ 9999 →
        (encode_blstats host).max_hitpoints
          = (if host.Upolyd then host.u_mhmax else host.u_uhpmax))) ∧
    (∀ host : Host,
      (encode_blstats host).energy ≤ 9999 ∧ (encode_blstats host).max_energy ≤ 9999 ∧
      (host.u_uen ≤ 9999 → (encode_blstats host).energy = host.u_uen) ∧
      (host.u_uenmax ≤ 9999 → (encode_blstats host).max_energy = host.u_uenmax)) := by
  refine ⟨⟨_, rfl, rfl, rfl, by decide⟩, ?_, ?_⟩
  · intro host
    simp only [encode_blstats, encode_max_hitpoints, min]
    generalize (if host.Upolyd then host.u_mhmax else host.u_uhpmax) = v
    intro hv
    by_cases h : v < 9999
    · simp only [h, if_true]
      rw [to_int16_of_range v hv (by omega)]
      exact ⟨by omega, fun _ => rfl⟩
    · simp only [h, if_false]
      refine ⟨by decide, fun h2 => ?_⟩
      have : v = 9999 := by omega
      rw [this]; decide
  · intro host
    simp only [encode_blstats, min]
    refine ⟨?_, ?_, ?_, ?_⟩
    · split <;> omega
    · split <;> omega
    · intro h; split <;> omega
    · intro h; split <;> omega

theorem to_uint8_of_range (v : Int) (h1 : 0 ≤ v) (h2 : v ≤ 255) : to_uint8 v = v.toNat := by
  unfold to_uint8
  rw [Int.emod_eq_of_lt h1 (by omega)]

theorem getElem?_set_facts {α : Type} (l : List α) (off : Nat) (a : α) :
    (∀ j, j ≠ off → (l.set off a)[j]? = l[j]?) ∧ (off < l.length → (l.set off a)[off]? = some a) := by
  constructor
  · intro j hj
    rw [List.getElem?_set]
    simp [Ne.symm hj]
  · intro h
    simp [List.getElem?_set, h]

/-- C19: for all in-range coordinates, every glyph id in the signed 16-bit
range and every char code, color and special in 0..255, store_glyph returns
and sets the glyph array at the offset of the cell to the glyph, changing no
other glyph cell and none of the char, color or special arrays;
store_mapped_glyph returns and sets those three arrays at the same offset,
changing no other cell and no glyph cell; and the two writes to one cell give
the same state in either order. -/
theorem C19_writes_independent (K : HostDecls) (self : NetHackRL)
    (x y glyph ch color special : Int)
    (hW : 1 < K.COLNO) (hH : 0 < K.ROWNO) (hsz : K.cells < 18446744073709551616)
    (hx : 1 ≤ x ∧ x ≤ (K.COLNO : Int) - 1) (hy : 0 ≤ y ∧ y < K.ROWNO)
    (hg : -32768 ≤ glyph ∧ glyph ≤ 32767) (hch : 0 ≤ ch ∧ ch ≤ 255)
    (hco : 0 ≤ color ∧ color ≤ 255) (hsp : 0 ≤ special ∧ special ≤ 255) :
    grid_offset K x y = y.toNat * (K.COLNO - 1) + (x - 1).toNat ∧
    grid_offset K x y < K.cells ∧
    (∃ s, store_glyph K self x y glyph = .ok s ∧
      s.glyphs_ = self.glyphs_.set (grid_offset K x y) glyph ∧
      (∀ j, j ≠ grid_offset K x y → s.glyphs_[j]? = self.glyphs_[j]?) ∧
      (grid_offset K x y < self.glyphs_.length → s.glyphs_[grid_offset K x y]? = some glyph) ∧
      s.chars_ = self.chars_ ∧ s.colors_ = self.colors_ ∧ s.specials_ = self.specials_) ∧
    (∃ s, store_mapped_glyph K self ch color special x y = .ok s ∧
      s.chars_ = self.chars_.set (grid_offset K x y) ch.toNat ∧
      s.colors_ = self.colors_.set (grid_offset K x y) color.toNat ∧
      s.specials_ = self.specials_.set (grid_offset K x y) special.toNat ∧
      (∀ j, j ≠ grid_offset K x y →
        s.chars_[j]? = self.chars_[j]? ∧ s.colors_[j]? = self.colors_[j]? ∧
        s.specials_[j]? = self.specials_[j]?) ∧
      s.glyphs_ = self.glyphs_) ∧
    (∃ s, (store_glyph K self x y glyph).bind
          (fun s1 => store_mapped_glyph K s1 ch color special x y) = .ok s ∧
        (store_mapped_glyph K self ch color special x y).bind
          (fun s1 => store_glyph K s1 x y glyph) = .ok s) := by
  have hoff := grid_offset_of_nonneg K x y hW hH hsz hx.1 hy.1
  have hin := grid_offset_in_range K x y hW hH hsz hx.1 hx.2 hy.1 hy.2
  have hlt := hoff.2
  have e1 : ∀ s0 : NetHackRL, store_glyph K s0 x y glyph
      = .ok { s0 with glyphs_ := s0.glyphs_.set (grid_offset K x y) glyph } := by
    intro s0
    simp only [store_glyph, hlt, if_true, to_int16_of_range glyph hg.1 hg.2]
  have e2 : ∀ s0 : NetHackRL, store_mapped_glyph K s0 ch color special x y
      = .ok { s0 with
          chars_ := s0.chars_.set (grid_offset K x y) ch.toNat
          colors_ := s0.colors_.set (grid_offset K x y) color.toNat
          specials_ := s0.specials_.set (grid_offset K x y) special.toNat } := by
    intro s0
    simp only [store_mapped_glyph, hlt, if_true, to_uint8_of_range ch hch.1 hch.2,
      to_uint8_of_range color hco.1 hco.2, to_uint8_of_range special hsp.1 hsp.2]
  refine ⟨hin, hlt, ⟨_, e1 self, rfl, (getElem?_set_facts _ _ _).1, (getElem?_set_facts _ _ _).2,
    rfl, rfl, rfl⟩, ⟨_, e2 self, rfl, rfl, rfl, ?_, rfl⟩, ?_⟩
  · intro j hj
    exact ⟨(getElem?_set_facts _ _ _).1 j hj, (getElem?_set_facts _ _ _).1 j hj,
      (getElem?_set_facts _ _ _).1 j hj⟩
  · refine ⟨{ self with
        glyphs_ := self.glyphs_.set (grid_offset K x y) glyph
        chars_ := self.chars_.set (grid_offset K x y) ch.toNat
        colors_ := self.colors_.set (grid_offset K x y) color.toNat
        specials_ := self.specials_.set (grid_offset K x y) special.toNat }, ?_, ?_⟩
    · rw [e1 self]; simp only [Except.bind]; rw [e2]
    · rw [e2 self]; simp only [Except.bind]; rw [e1]

/-- C19 (witness): the statement for glyph 5 and the rendering (64, 7, 0) at
(x = 1, y = 0) on a freshly constructed NetHack 3.6 bridge. -/
theorem C19_witness :
    grid_offset nethack36 1 0 = (0 : Int).toNat * (nethack36.COLNO - 1) + ((1 : Int) - 1).toNat ∧
    grid_offset nethack36 1 0 < nethack36.cells ∧
    (∃ s, store_glyph nethack36 (NetHackRL.ctor nethack36 zeroed) 1 0 5 = .ok s ∧
      s.glyphs_ = (NetHackRL.ctor nethack36 zeroed).glyphs_.set (grid_offset nethack36 1 0) 5 ∧
      (∀ j, j ≠ grid_offset nethack36 1 0 →
        s.glyphs_[j]? = (NetHackRL.ctor nethack36 zeroed).glyphs_[j]?) ∧
      (grid_offset nethack36 1 0 < (NetHackRL.ctor nethack36 zeroed).glyphs_.length →
        s.glyphs_[grid_offset nethack36 1 0]? = some 5) ∧
      s.chars_ = (NetHackRL.ctor nethack36 zeroed).chars_ ∧
      s.colors_ = (NetHackRL.ctor nethack36 zeroed).colors_ ∧
      s.specials_ = (NetHackRL.ctor nethack36 zeroed).specials_) ∧
    (∃ s, store_mapped_glyph nethack36 (NetHackRL.ctor nethack36 zeroed) 64 7 0 1 0 = .ok s ∧
      s.chars_ = (NetHackRL.ctor nethack36 zeroed).chars_.set (grid_offset nethack36 1 0)
        (64 : Int).toNat ∧
      s.colors_ = (NetHackRL.ctor nethack36 zeroed).colors_.set (grid_offset nethack36 1 0)
        (7 : Int).toNat ∧
      s.specials_ = (NetHackRL.ctor nethack36 zeroed).specials_.set (grid_offset nethack36 1 0)
        (0 : Int).toNat ∧
      (∀ j, j ≠ grid_offset nethack36 1 0 →
        s.chars_[j]? = (NetHackRL.ctor nethack36 zeroed).chars_[j]? ∧
        s.colors_[j]? = (NetHackRL.ctor nethack36 zeroed).colors_[j]? ∧
        s.specials_[j]? = (NetHackRL.ctor nethack36 zeroed).specials_[j]?) ∧
      s.glyphs_ = (NetHackRL.ctor nethack36 zeroed).glyphs_) ∧
    (∃ s, (store_glyph nethack36 (NetHackRL.ctor nethack36 zeroed) 1 0 5).bind
          (fun s1 => store_mapped_glyph nethack36 s1 64 7 0 1 0) = .ok s ∧
        (store_mapped_glyph nethack36 (NetHackRL.ctor nethack36 zeroed) 64 7 0 1 0).bind
          (fun s1 => store_glyph nethack36 s1 1 0 5) = .ok s) :=
  C19_writes_independent nethack36 (NetHackRL.ctor nethack36 zeroed) 1 0 5 64 7 0
    (by decide) (by decide) (by decide) (by decide) (by decide) (by decide) (by decide)
    (by decide) (by decide)

end nethack_rl
